import Mathlib

/-!
Verification of the cache-aside user repository of
`API-Performance-Optimization-L.0.4` (`app/services/user.py`,
`app/core/cache.py`, `app/models/user.py`).

The Python code is shallowly embedded: JSON-deserialized cache payloads
become `PyVal` dictionaries, the MySQL table becomes a list of `UserRec`
rows, the Redis cache becomes an association list of keys to stored
entries, and every repository operation becomes a pure state-passing
function.  Connectivity failures of the cache collaborator are driven by
an explicit oracle `o : Nat → Bool` (one tick per cache call; `true`
means the Redis call raises `RedisError`).
-/

namespace APIPerf

/-- A Python value as produced by `json.loads` on a cache payload.
`vother` stands abstractly for any further nested JSON value (array or
object); the only facts the repository code ever uses about such a value
are that it is neither an `int`, `bool` nor `str`, and whether it is
truthy. -/
inductive PyVal where
  | vnull
  | vint (n : Int)
  | vbool (b : Bool)
  | vstr (s : String)
  | vother (truthy : Bool)
deriving DecidableEq, Repr

/-- A Python dict (string keys), as held in the cache. -/
abbrev Dict := List (String × PyVal)

/-- Python `d[k]` / `k in d`: first binding of `k` (Python dicts have unique keys;
for lists with duplicate keys the first binding is authoritative). -/
def dictLookup (d : Dict) (k : String) : Option PyVal :=
  match d with
  | [] => none
  | (k', v) :: rest => if k' = k then some v else dictLookup rest k

/-- Python `k in d`. -/
def dictHas (d : Dict) (k : String) : Bool :=
  (dictLookup d k).isSome

/-- The comprehension `{k: v for k, v in d.items() if k != "_cache_version"}` of `get_user`. -/
def dictStrip (d : Dict) : Dict :=
  d.filter (fun p => p.1 ≠ "_cache_version")

/-- Python `str(x)` on the values that can appear as attributes. -/
def pyStrOfVal : PyVal → String
  | .vnull => "None"
  | .vint n => toString n
  | .vbool b => if b then "True" else "False"
  | .vstr s => s
  | .vother _ => "<object>"

/-- Python `str()` of an optional timestamp/string attribute
(`str(None) = "None"`), as used by `_user_to_dict`. -/
def pyStr (x : Option String) : String :=
  match x with
  | some s => s
  | none => "None"

/-- Python `"{}".format(x)` for the optional integer primary key
(`USER_KEY.format(db_user.id)` before the INSERT is flushed gives
`"user:None"`). -/
def pyFormatId (x : Option Nat) : String :=
  match x with
  | some n => toString n
  | none => "None"

/-- A row of the `user` table (`app/models/user.py` plus the
`created_at` / `updated_at` columns of `BaseModel`).  `id`, `created_at`
and `updated_at` are `none` on a freshly constructed, not yet flushed
instance: their values are only assigned by the database at flush time. -/
structure UserRec where
  id : Option Nat
  email : String
  username : String
  hashed_password : String
  full_name : Option String
  is_active : Bool
  is_superuser : Bool
  created_at : Option String
  updated_at : Option String
deriving DecidableEq, Repr

/-- The column names of the mapped `User` class; `User(**kwargs)`
(SQLAlchemy's declarative constructor) raises `TypeError` exactly when a
keyword is not among these. -/
def userColumns : List String :=
  ["id", "email", "username", "hashed_password", "full_name",
   "is_active", "is_superuser", "created_at", "updated_at"]

/-- The function `_user_to_dict`: the denormalized cache projection of a user row.
Note that `hashed_password` is not among the emitted fields, that the
primary key is `null` when the row has not been flushed yet, and that
`str()` of an unassigned timestamp is the literal string `"None"`. -/
def user_to_dict (u : UserRec) : Dict :=
  [("id", match u.id with | some n => PyVal.vint n | none => PyVal.vnull),
   ("email", PyVal.vstr u.email),
   ("username", PyVal.vstr u.username),
   ("full_name", match u.full_name with | some s => PyVal.vstr s | none => PyVal.vnull),
   ("is_active", PyVal.vbool u.is_active),
   ("is_superuser", PyVal.vbool u.is_superuser),
   ("created_at", PyVal.vstr (pyStr u.created_at)),
   ("updated_at", PyVal.vstr (pyStr u.updated_at)),
   ("_cache_version", PyVal.vstr "1.1")]

/-- The required field set of `_validate_cache_data`. -/
def requiredFields : List String :=
  ["id", "email", "username", "full_name", "is_active",
   "is_superuser", "created_at", "updated_at", "_cache_version"]

/-- Python `isinstance(x, int)`.  Crucially, `bool` is a subclass of
`int` in Python, so booleans pass this check. -/
def isinstInt : Option PyVal → Bool
  | some (.vint _) => true
  | some (.vbool _) => true
  | _ => false

/-- Python `isinstance(x, str)`. -/
def isinstStr : Option PyVal → Bool
  | some (.vstr _) => true
  | _ => false

/-- The check `data["_cache_version"] in ["1.0", "1.1"]`. -/
def versionAccepted : Option PyVal → Bool
  | some (.vstr s) => s = "1.0" || s = "1.1"
  | _ => false

/-- The function `_validate_cache_data` (`app/services/user.py`).  The trailing
`except (TypeError, KeyError)` of the source can never fire on a dict
argument, since every index is guarded by the presence check. -/
def validate_cache_data (d : Dict) : Bool :=
  requiredFields.all (fun f => dictHas d f)
  && isinstInt (dictLookup d "id")
  && isinstStr (dictLookup d "email")
  && isinstStr (dictLookup d "username")
  && isinstStr (dictLookup d "_cache_version")
  && versionAccepted (dictLookup d "_cache_version")

/-! ## Transaction retry wrapper (`with_transaction_retry`) -/

/-- The constant `MAX_RETRIES` of `app/services/user.py`. -/
def MAX_RETRIES : Nat := 3

/-- The constant `RETRY_BACKOFF` (seconds). -/
def RETRY_BACKOFF : ℚ := 1/10

/-- Python `str.lower()` (and the case folding of the store's
case-insensitive collation), as a structurally recursive map. -/
def strLower (s : String) : String :=
  String.mk (s.data.map Char.toLower)

def listStartsWith : List Char → List Char → Bool
  | [], _ => true
  | _ :: _, [] => false
  | a :: as, b :: bs => a = b && listStartsWith as bs

def listContainsSub (needle : List Char) : List Char → Bool
  | [] => needle.isEmpty
  | c :: rest => listStartsWith needle (c :: rest) || listContainsSub needle rest

/-- The test `"deadlock" in str(e).lower()`. -/
def containsDeadlock (s : String) : Bool :=
  listContainsSub "deadlock".toList (strLower s).toList

/-- The exception raised by one execution of a wrapped operation:
`OperationalError` (with its `str()` detail) is inspected by the retry
loop; any other exception is not caught by the wrapper. -/
inductive RetryErr where
  | operationalError (detail : String)
  | otherError
deriving DecidableEq, Repr

/-- The `while True` loop of `with_transaction_retry`.  `f n` is the
outcome of the `n`-th execution of the wrapped function (counting from
0), `retries` the current value of the `retries` counter, `execs` the
number of executions performed so far and `sleeps` the durations (in
seconds) slept so far.  Returns the final outcome together with the
total number of executions of the body and the sleep durations. -/
def retryLoop {α : Type} (f : Nat → Except RetryErr α) (retries execs : Nat)
    (sleeps : List ℚ) : Except RetryErr α × Nat × List ℚ :=
  match f execs with
  | .ok a => (.ok a, execs + 1, sleeps)
  | .error .otherError => (.error .otherError, execs + 1, sleeps)
  | .error (.operationalError e) =>
    if h : MAX_RETRIES ≤ retries ∨ containsDeadlock e = false then
      (.error (.operationalError e), execs + 1, sleeps)
    else
      retryLoop f (retries + 1) (execs + 1)
        (sleeps ++ [RETRY_BACKOFF * ((retries : ℚ) + 1)])
termination_by MAX_RETRIES + 1 - retries
decreasing_by
  push_neg at h
  omega

/-- The decorator `with_transaction_retry(func)` applied to one call: runs the wrapped
body, retrying on deadlock-flavoured `OperationalError`s. -/
def with_transaction_retry {α : Type} (f : Nat → Except RetryErr α) :
    Except RetryErr α × Nat × List ℚ :=
  retryLoop f 0 0 []

/-! ## Cache store model (`app/core/cache.py`)

A stored cache value is the JSON payload as the repository sees it after
`deserialize_value`; `corrupt` stands for a stored string that fails
JSON deserialization, which makes `cache_get` raise `ValueError`. -/

inductive CacheVal where
  | cdict (d : Dict)
  | clist (ds : List Dict)
  | cnum (n : Int)
  | corrupt
deriving DecidableEq, Repr

/-- Python truthiness of a deserialized cache value (`if cached_user:`). -/
def cacheTruthy : CacheVal → Bool
  | .cdict d => !d.isEmpty
  | .clist ds => !ds.isEmpty
  | .cnum n => n ≠ 0
  | .corrupt => true

/-- A cache entry: stored value plus the TTL it was written with. -/
structure CEntry where
  val : CacheVal
  ttl : Nat
deriving DecidableEq, Repr

/-- The key space of the Redis database. -/
abbrev CState := List (String × CEntry)

def cLookup (c : CState) (k : String) : Option CEntry :=
  match c with
  | [] => none
  | (k', e) :: rest => if k' = k then some e else cLookup rest k

def cErase (c : CState) (k : String) : CState :=
  c.filter (fun p => p.1 ≠ k)

/-- Redis `SETEX`: replace any existing entry under `k`. -/
def cInsert (c : CState) (k : String) (e : CEntry) : CState :=
  (k, e) :: cErase c k

/-- A wildcard consuming zero or more characters: succeed if the rest
of the pattern (`next`) matches any suffix of the string. -/
def starMatch (next : List Char → Bool) : List Char → Bool
  | [] => next []
  | c :: ss => next (c :: ss) || starMatch next ss

/-- Redis glob matching, for the patterns used by `cache_clear_pattern`
(only the `*` wildcard occurs: `"users:list:*:*"`). -/
def globMatch : List Char → List Char → Bool
  | [], s => s.isEmpty
  | p :: ps, s =>
    if p = '*' then starMatch (globMatch ps) s
    else
      match s with
      | [] => false
      | c :: ss => p = c && globMatch ps ss

def globMatchStr (pattern s : String) : Bool :=
  globMatch pattern.toList s.toList

/-- MySQL `LIKE` (as issued by `Column.ilike`): case-insensitive, `%`
matches any sequence, `_` matches any single character. -/
def sqlLikeAux : List Char → List Char → Bool
  | [], s => s.isEmpty
  | p :: ps, s =>
    if p = '%' then starMatch (sqlLikeAux ps) s
    else
      match s with
      | [] => false
      | c :: ss => (p = c || p = '_') && sqlLikeAux ps ss

/-- SQL `column ILIKE pattern` on full strings (case-insensitive). -/
def sqlILike (pattern s : String) : Bool :=
  sqlLikeAux (strLower pattern).toList (strLower s).toList

/-! ## Machine state and oracle-driven cache primitives -/

/-- The state threaded through a repository operation: the `user` table
(with the auto-increment counter and a logical clock for the timestamp
defaults), the Redis key space, the number of cache calls made so far
(`tick`, which also indexes the connectivity oracle) and the number of
persistence queries issued. -/
structure St where
  db : List UserRec
  nextId : Nat
  time : Nat
  cache : CState
  tick : Nat
  dbQueries : Nat
deriving DecidableEq, Repr

/-- Connectivity oracle: `o n = true` means the `n`-th cache call of the
run raises `RedisError` inside the Redis client. -/
abbrev Oracle := Nat → Bool

def allOk : Oracle := fun _ => false

def allFail : Oracle := fun _ => true

/-- Outcome of `cache_get` as seen by the repository: a raised
`RedisError`, a raised `ValueError` (undeserializable payload), `None`,
or the deserialized value. -/
inductive GetR where
  | errR
  | corruptR
  | miss
  | hit (v : CacheVal)
deriving DecidableEq, Repr

def cacheGetP (o : Oracle) (st : St) (key : String) : St × GetR :=
  let fail := o st.tick
  let st1 := {st with tick := st.tick + 1}
  if fail then (st1, .errR)
  else
    match cLookup st.cache key with
    | none => (st1, .miss)
    | some e => if e.val = .corrupt then (st1, .corruptR) else (st1, .hit e.val)

/-- The function `cache_set`: never raises — both `RedisError` and serialization
`ValueError` are caught inside and turned into `False`. -/
def cacheSetP (o : Oracle) (st : St) (key : String) (v : CacheVal) (ttl : Nat) : St × Bool :=
  let fail := o st.tick
  let st1 := {st with tick := st.tick + 1}
  if fail then (st1, false)
  else ({st1 with cache := cInsert st1.cache key ⟨v, ttl⟩}, true)

/-- The function `cache_delete`: never raises; returns `bool(client.delete(key))`,
i.e. `False` also when the key was simply absent. -/
def cacheDeleteP (o : Oracle) (st : St) (key : String) : St × Bool :=
  let fail := o st.tick
  let st1 := {st with tick := st.tick + 1}
  if fail then (st1, false)
  else ({st1 with cache := cErase st1.cache key}, (cLookup st.cache key).isSome)

/-- The function `cache_clear_pattern`: scan-then-delete of all keys matching the
glob; a no-op success when nothing matches; `False` on `RedisError`. -/
def cacheClearPatternP (o : Oracle) (st : St) (pattern : String) : St × Bool :=
  let fail := o st.tick
  let st1 := {st with tick := st.tick + 1}
  if fail then (st1, false)
  else ({st1 with cache := st1.cache.filter (fun p => !globMatchStr pattern p.1)}, true)

/-- The function `cache_multi_set`: one pipelined call; all-or-nothing here (a
connectivity failure of the pipeline writes nothing and yields `False`). -/
def cacheMultiSetP (o : Oracle) (st : St) (kvs : List (String × CacheVal)) (ttl : Nat) :
    St × Bool :=
  let fail := o st.tick
  let st1 := {st with tick := st.tick + 1}
  if fail then (st1, false)
  else ({st1 with cache := kvs.foldl (fun c kv => cInsert c kv.1 ⟨kv.2, ttl⟩) st1.cache}, true)

/-! ## Persistence helpers -/

/-- The query `db.query(User).filter(User.id == user_id).first()`. -/
def dbFindById : List UserRec → Nat → Option UserRec
  | [], _ => none
  | u :: us, uid => if u.id = some uid then some u else dbFindById us uid

/-- The query `db.query(User).filter(User.email == email).first()` (the MySQL `=`
comparison; the by-email route queries with the email exactly as given). -/
def dbFindByEmail : List UserRec → String → Option UserRec
  | [], _ => none
  | u :: us, e => if u.email = e then some u else dbFindByEmail us e

/-- The UPDATE issued at flush time for the session-attached row. -/
def replaceFirstById : List UserRec → Nat → UserRec → List UserRec
  | [], _, _ => []
  | u :: us, uid, v => if u.id = some uid then v :: us else u :: replaceFirstById us uid v

/-- The DELETE issued for `db.delete(db_user)`. -/
def removeFirstById : List UserRec → Nat → List UserRec
  | [], _ => []
  | u :: us, uid => if u.id = some uid then us else u :: removeFirstById us uid

/-- Case-insensitive email equality.  Modelled from the spec: the MySQL
server enforcing the `UNIQUE` constraints declared on
`User.email` / `User.username` is an external collaborator not under
`src/`; per the spec, email uniqueness is case-insensitive and username
uniqueness is case-sensitive. -/
def emailEqCi (a b : String) : Bool :=
  strLower a = strLower b

/-- Two distinct rows are jointly admissible under the store's unique
constraints. -/
def rowsCompatible (u v : UserRec) : Bool :=
  !emailEqCi u.email v.email && u.username ≠ v.username

/-- Modelled from the spec: the store's commit-time unique-constraint
check over the whole table (pairwise admissibility). -/
def storeUniqueOK : List UserRec → Bool
  | [] => true
  | u :: us => us.all (fun v => rowsCompatible u v) && storeUniqueOK us

/-! ## Repository operations (`app/services/user.py`) -/

inductive RepoErr where
  | conflictErr (msg : String)
  | invalidArg (msg : String)
  | integrityErr
  | cacheDeserializeErr
  | invalidRequestErr
deriving DecidableEq, Repr

/-- Outcome of a repository operation: normal return or a propagated
exception. -/
inductive RRes (α : Type) where
  | ok (a : α)
  | err (e : RepoErr)
deriving DecidableEq, Repr

/-- The object a read hands back: the session-attached row found in the
database, or the transient `User(**kwargs)` built from a cached dict
(which is never added to the session). -/
inductive GotUser where
  | fromDb (u : UserRec)
  | fromCache (d : Dict)
deriving DecidableEq, Repr

/-- Attribute access on a transient `User` built from kwargs: an
attribute never set reads as `None`. -/
def attrVal (d : Dict) (k : String) : PyVal :=
  (dictLookup d k).getD .vnull

/-- The attribute `db_user.email` rendered as the string Python would interpolate. -/
def gotEmailStr : GotUser → String
  | .fromDb u => u.email
  | .fromCache d => pyStrOfVal (attrVal d "email")

/-- The constructor call `User(**d)` succeeds iff every keyword is a mapped column name
(SQLAlchemy's declarative constructor raises `TypeError` otherwise). -/
def kwargsAccepted (d : Dict) : Bool :=
  d.all (fun p => userColumns.contains p.1)

/-- Key format `"user:{}".format(x)`. -/
def USER_KEY (x : String) : String := "user:" ++ x

/-- Key format `"user:email:{}".format(x)`. -/
def USER_EMAIL_KEY (x : String) : String := "user:email:" ++ x

/-- Key format `"users:list:{}:{}".format(skip, limit)`. -/
def USERS_LIST_KEY (skip limit : Int) : String :=
  "users:list:" ++ toString skip ++ ":" ++ toString limit

def USER_CACHE_EXPIRE : Nat := 3600

def USERS_LIST_CACHE_EXPIRE : Nat := 300

/-- Fallthrough phase of `get_user`: query the database and, when the
row exists and Redis did not fail earlier, repopulate the primary key. -/
def getUserDbPhase (o : Oracle) (st : St) (uid : Nat) (redisAvailable : Bool) :
    St × RRes (Option GotUser) :=
  let st1 := {st with dbQueries := st.dbQueries + 1}
  match dbFindById st1.db uid with
  | none => (st1, .ok none)
  | some u =>
    if redisAvailable then
      let (st2, _) := cacheSetP o st1 (USER_KEY (toString uid)) (.cdict (user_to_dict u))
        USER_CACHE_EXPIRE
      (st2, .ok (some (.fromDb u)))
    else (st1, .ok (some (.fromDb u)))

/-- The function `get_user`: primary-key read-through.  A `RedisError` from
`cache_get` is caught and treated as a miss with `redis_available`
cleared; a deserialization `ValueError` from `cache_get` is NOT caught
(the `except` clause lists only `RedisError` and `ConnectionError`) and
propagates.  A validated hit is returned as a transient `User` built
from the dict with `_cache_version` stripped; an invalid or
unreconstructable hit is deleted and falls through to the database. -/
def get_user (o : Oracle) (st : St) (uid : Nat) : St × RRes (Option GotUser) :=
  let key := USER_KEY (toString uid)
  let (st1, g) := cacheGetP o st key
  match g with
  | .corruptR => (st1, .err .cacheDeserializeErr)
  | .errR => getUserDbPhase o st1 uid false
  | .miss => getUserDbPhase o st1 uid true
  | .hit v =>
    if cacheTruthy v then
      match v with
      | .cdict d =>
        if validate_cache_data d then
          let stripped := dictStrip d
          if kwargsAccepted stripped then (st1, .ok (some (.fromCache stripped)))
          else
            let (st2, _) := cacheDeleteP o st1 key
            getUserDbPhase o st2 uid true
        else
          let (st2, _) := cacheDeleteP o st1 key
          getUserDbPhase o st2 uid true
      | _ =>
        let (st2, _) := cacheDeleteP o st1 key
        getUserDbPhase o st2 uid true
    else getUserDbPhase o st1 uid true

/-- Fallthrough phase of `get_user_by_email`: query by exact email and,
on a find, populate the secondary and then the primary cache keys. -/
def getUserByEmailDbPhase (o : Oracle) (st : St) (email : String) :
    St × RRes (Option GotUser) :=
  let st1 := {st with dbQueries := st.dbQueries + 1}
  match dbFindByEmail st1.db email with
  | none => (st1, .ok none)
  | some u =>
    let ud := user_to_dict u
    let (st2, _) := cacheSetP o st1 (USER_EMAIL_KEY email) (.cdict ud) USER_CACHE_EXPIRE
    let (st3, _) := cacheSetP o st2 (USER_KEY (pyFormatId u.id)) (.cdict ud) USER_CACHE_EXPIRE
    (st3, .ok (some (.fromDb u)))

/-- The function `get_user_by_email`: mirrors `get_user` on the secondary key but on
a hit neither validates the entry nor strips `_cache_version` before
`User(**cached_user)`; when the reconstruction raises `TypeError` the
entry is deleted and the read falls through to the database. -/
def get_user_by_email (o : Oracle) (st : St) (email : String) :
    St × RRes (Option GotUser) :=
  let key := USER_EMAIL_KEY email
  let (st1, g) := cacheGetP o st key
  match g with
  | .corruptR => (st1, .err .cacheDeserializeErr)
  | .errR => getUserByEmailDbPhase o st1 email
  | .miss => getUserByEmailDbPhase o st1 email
  | .hit v =>
    if cacheTruthy v then
      match v with
      | .cdict d =>
        if kwargsAccepted d then (st1, .ok (some (.fromCache d)))
        else
          let (st2, _) := cacheDeleteP o st1 key
          getUserByEmailDbPhase o st2 email
      | _ =>
        let (st2, _) := cacheDeleteP o st1 key
        getUserByEmailDbPhase o st2 email
    else getUserByEmailDbPhase o st1 email

/-- Fallthrough phase of `get_users`: `offset(skip).limit(limit)`, then
populate the list entry and bulk-populate the per-user entries (only
when the page is non-empty). -/
def getUsersDbPhase (o : Oracle) (st : St) (skip limit : Int) : St × RRes (List GotUser) :=
  let st1 := {st with dbQueries := st.dbQueries + 1}
  let us := (st1.db.drop skip.toNat).take limit.toNat
  if us.isEmpty then (st1, .ok [])
  else
    let (st2, _) := cacheSetP o st1 (USERS_LIST_KEY skip limit) (.clist (us.map user_to_dict))
      USERS_LIST_CACHE_EXPIRE
    let (st3, _) := cacheMultiSetP o st2
      (us.map (fun u => (USER_KEY (pyFormatId u.id), .cdict (user_to_dict u))))
      USER_CACHE_EXPIRE
    (st3, .ok (us.map .fromDb))

/-- The function `get_users`: pagination preconditions first (before any I/O), then
list-key read-through. -/
def get_users (o : Oracle) (st : St) (skip limit : Int) : St × RRes (List GotUser) :=
  if skip < 0 then (st, .err (.invalidArg "skip must be non-negative"))
  else if limit ≤ 0 then (st, .err (.invalidArg "limit must be positive"))
  else
    let key := USERS_LIST_KEY skip limit
    let (st1, g) := cacheGetP o st key
    match g with
    | .corruptR => (st1, .err .cacheDeserializeErr)
    | .errR => getUsersDbPhase o st1 skip limit
    | .miss => getUsersDbPhase o st1 skip limit
    | .hit v =>
      if cacheTruthy v then
        match v with
        | .clist ds =>
          if ds.all kwargsAccepted then (st1, .ok (ds.map .fromCache))
          else
            let (st2, _) := cacheDeleteP o st1 key
            getUsersDbPhase o st2 skip limit
        | _ =>
          let (st2, _) := cacheDeleteP o st1 key
          getUsersDbPhase o st2 skip limit
      else getUsersDbPhase o st1 skip limit

/-- The input schema `UserCreate` (all fields validated upstream). -/
structure UserCreate where
  email : String
  username : String
  password : String
  full_name : Option String
  is_active : Bool
  is_superuser : Bool
deriving DecidableEq, Repr

/-- Hashing `get_password_hash` is delegated to the out-of-scope security
module; modelled as an opaque injective tagging. -/
def get_password_hash (p : String) : String :=
  "bcrypt$" ++ p

/-- The function `create_user`.  Pre-checks run first inside the transaction (the
email one via `ilike`, i.e. a case-insensitive `LIKE` in which `%` and
`_` of the candidate email act as wildcards; the username one by exact
equality).  The new instance is added to the session but NOT flushed
before the cache writes, so the primary cache key is formatted with
`db_user.id = None` and the cached projection carries `"id": null` and
the string `"None"` for both timestamps.  The commit then flushes the
INSERT, assigning `id`/`created_at`/`updated_at`; an `IntegrityError`
there is translated to a conflict `ValueError` (unreachable in this
sequential model because the pre-checks subsume the constraint check,
and noted as such). -/
def create_user (o : Oracle) (st : St) (d : UserCreate) : St × RRes UserRec :=
  if st.db.any (fun u => sqlILike d.email u.email) then
    (st, .err (.conflictErr ("Email address " ++ d.email ++ " is already registered")))
  else if st.db.any (fun u => decide (u.username = d.username)) then
    (st, .err (.conflictErr ("Username " ++ d.username ++ " is already taken")))
  else
    let pending : UserRec :=
      { id := none
        email := strLower d.email
        username := d.username
        hashed_password := get_password_hash d.password
        full_name := d.full_name
        is_active := d.is_active
        is_superuser := d.is_superuser
        created_at := none
        updated_at := none }
    let pdict := user_to_dict pending
    let (st1, _) := cacheSetP o st (USER_KEY (pyFormatId pending.id)) (.cdict pdict)
      USER_CACHE_EXPIRE
    let (st2, _) := cacheSetP o st1 (USER_EMAIL_KEY pending.email) (.cdict pdict)
      USER_CACHE_EXPIRE
    let (st3, _) := cacheClearPatternP o st2 "users:list:*:*"
    let flushed : UserRec :=
      { pending with
          id := some st3.nextId
          created_at := some (toString st3.time)
          updated_at := some (toString st3.time) }
    let db' := st3.db ++ [flushed]
    if storeUniqueOK db' then
      ({st3 with db := db', nextId := st3.nextId + 1, time := st3.time + 1}, .ok flushed)
    else
      (st3, .err (.conflictErr "User with this email or username already exists"))

/-- The input schema `UserUpdate` after `model_dump(exclude_unset=True)`:
`none` means the field was not provided.  (Explicit-`null` updates are
not modelled.) -/
structure UserUpdate where
  email : Option String := none
  username : Option String := none
  password : Option String := none
  full_name : Option String := none
  is_active : Option Bool := none
  is_superuser : Option Bool := none
deriving DecidableEq, Repr

/-- The `setattr` loop of `update_user` on a session-attached row
(`password` has been popped and re-added as `hashed_password`). -/
def applyUpdRow (u : UserRec) (p : UserUpdate) : UserRec :=
  { u with
      email := p.email.getD u.email
      username := p.username.getD u.username
      hashed_password := (p.password.map get_password_hash).getD u.hashed_password
      full_name := match p.full_name with | some s => some s | none => u.full_name
      is_active := p.is_active.getD u.is_active
      is_superuser := p.is_superuser.getD u.is_superuser }

/-- Python `setattr` on a transient cache-built `User`: plain attribute writes. -/
def dictSetAttr (d : Dict) (k : String) (v : PyVal) : Dict :=
  (k, v) :: d.filter (fun p => p.1 ≠ k)

def applyUpdDict (d : Dict) (p : UserUpdate) : Dict :=
  let d1 := match p.email with
    | some e => dictSetAttr d "email" (.vstr e) | none => d
  let d2 := match p.username with
    | some w => dictSetAttr d1 "username" (.vstr w) | none => d1
  let d3 := match p.password with
    | some pw => dictSetAttr d2 "hashed_password" (.vstr (get_password_hash pw)) | none => d2
  let d4 := match p.full_name with
    | some s => dictSetAttr d3 "full_name" (.vstr s) | none => d3
  let d5 := match p.is_active with
    | some b => dictSetAttr d4 "is_active" (.vbool b) | none => d4
  match p.is_superuser with
    | some b => dictSetAttr d5 "is_superuser" (.vbool b) | none => d5

/-- The function `_user_to_dict` applied to a transient cache-built `User`: reads the
attributes back out of the kwargs (missing attribute = `None`). -/
def user_to_dict_of_obj (d : Dict) : Dict :=
  [("id", attrVal d "id"),
   ("email", attrVal d "email"),
   ("username", attrVal d "username"),
   ("full_name", attrVal d "full_name"),
   ("is_active", attrVal d "is_active"),
   ("is_superuser", attrVal d "is_superuser"),
   ("created_at", .vstr (pyStrOfVal (attrVal d "created_at"))),
   ("updated_at", .vstr (pyStrOfVal (attrVal d "updated_at"))),
   ("_cache_version", .vstr "1.1")]

/-- The advisory email pre-check of `update_user`: only run when a new
email is provided and differs (case-sensitively) from the resolved
object's current email; looks for an exact-equality match among other
rows. -/
def emailConflictB (db : List UserRec) (uid : Nat) (oldEmail : String)
    (pe : Option String) : Bool :=
  match pe with
  | some e =>
    if e ≠ oldEmail then db.any (fun w => decide (w.email = e ∧ w.id ≠ some uid))
    else false
  | none => false

/-- The advisory username pre-check of `update_user`: run whenever a
username is provided. -/
def usernameConflictB (db : List UserRec) (uid : Nat) (pu : Option String) : Bool :=
  match pu with
  | some w => db.any (fun x => decide (x.username = w ∧ x.id ≠ some uid))
  | none => false

/-- The loop `for _ in range(2): if cache_delete(k): break` — one retry on a
falsy delete result. -/
def cacheDeleteTwice (o : Oracle) (st : St) (key : String) : St × Bool :=
  let (st1, b1) := cacheDeleteP o st key
  if b1 then (st1, true)
  else cacheDeleteP o st1 key

/-- Cache phase of `update_user` (between `setattr` and commit): delete
both old keys (one retry each), write both new keys from the updated
in-memory object, clear the list pattern.  All failures logged only. -/
def updateCachePhase (o : Oracle) (st : St) (uid : Nat) (oldEmail : String)
    (newDict : Dict) (newEmail : String) : St :=
  let (stA, _) := cacheDeleteTwice o st (USER_KEY (toString uid))
  let (stB, _) := cacheDeleteTwice o stA (USER_EMAIL_KEY oldEmail)
  let (stC, _) := cacheSetP o stB (USER_KEY (toString uid)) (.cdict newDict) USER_CACHE_EXPIRE
  let (stD, _) := cacheSetP o stC (USER_EMAIL_KEY newEmail) (.cdict newDict) USER_CACHE_EXPIRE
  let (stE, _) := cacheClearPatternP o stD "users:list:*:*"
  stE

/-- The function `update_user`.  Resolves the target through `get_user` (so a cache
hit yields a transient instance).  Pre-validates the new email (exact
equality, only when it differs from the resolved object's current
email) and the new username (exact equality, whenever provided) against
other rows.  Applies the changes, runs the cache phase, then commits:
for a session-attached row the UPDATE is flushed and checked against
the store constraints (an `IntegrityError` propagates uncaught after
rollback); a transient instance was never added to the session, so the
commit flushes nothing and the database is untouched. -/
def update_user (o : Oracle) (st : St) (uid : Nat) (p : UserUpdate) :
    St × RRes (Option GotUser) :=
  let (st1, r) := get_user o st uid
  match r with
  | .err e => (st1, .err e)
  | .ok none => (st1, .ok none)
  | .ok (some gu) =>
    let oldEmail := gotEmailStr gu
    if emailConflictB st1.db uid oldEmail p.email then
      (st1, .err (.conflictErr "Email is already in use"))
    else if usernameConflictB st1.db uid p.username then
      (st1, .err (.conflictErr "Username is already in use"))
    else
      match gu with
      | .fromCache dOld =>
        let dNew := applyUpdDict dOld p
        let st2 := updateCachePhase o st1 uid oldEmail (user_to_dict_of_obj dNew)
          (pyStrOfVal (attrVal dNew "email"))
        (st2, .ok (some (.fromCache dNew)))
      | .fromDb u =>
        let uNew := applyUpdRow u p
        let st2 := updateCachePhase o st1 uid oldEmail (user_to_dict uNew) uNew.email
        if uNew = u then (st2, .ok (some (.fromDb u)))
        else
          let flushed := {uNew with updated_at := some (toString st2.time)}
          let db' := replaceFirstById st2.db uid flushed
          if storeUniqueOK db' then
            ({st2 with db := db', time := st2.time + 1}, .ok (some (.fromDb flushed)))
          else (st2, .err .integrityErr)

/-- The function `delete_user`.  Resolves through `get_user`; a missing user returns
`False`.  A cache-resolved (transient) instance makes
`session.delete()` raise `InvalidRequestError`, which propagates.  For
an attached row: DELETE and commit, then best-effort cache cleanup, and
`True`. -/
def delete_user (o : Oracle) (st : St) (uid : Nat) : St × RRes Bool :=
  let (st1, r) := get_user o st uid
  match r with
  | .err e => (st1, .err e)
  | .ok none => (st1, .ok false)
  | .ok (some gu) =>
    match gu with
    | .fromCache _ => (st1, .err .invalidRequestErr)
    | .fromDb _ =>
      let email := gotEmailStr gu
      let st2 := {st1 with db := removeFirstById st1.db uid}
      let (st3, _) := cacheDeleteP o st2 (USER_KEY (toString uid))
      let (st4, _) := cacheDeleteP o st3 (USER_EMAIL_KEY email)
      let (st5, _) := cacheClearPatternP o st4 "users:list:*:*"
      (st5, .ok true)

/-! ## Operation sequences (for the global uniqueness invariant) -/

inductive RepoOp where
  | createOp (d : UserCreate)
  | updateOp (uid : Nat) (p : UserUpdate)
deriving DecidableEq, Repr

def runOp (o : Oracle) (st : St) : RepoOp → St
  | .createOp d => (create_user o st d).1
  | .updateOp uid p => (update_user o st uid p).1

def runOps (o : Oracle) (st : St) : List RepoOp → St
  | [] => st
  | op :: ops => runOps o (runOp o st op) ops

/-- The empty initial state (empty table, empty cache). -/
def st0 : St :=
  { db := [], nextId := 1, time := 0, cache := [], tick := 0, dbQueries := 0 }

/-! ## Example inputs shared by the concrete evaluations -/

def exCreate1 : UserCreate :=
  ⟨"a@b.c", "u1", "password1", none, true, false⟩

def exCreate2 : UserCreate :=
  ⟨"d@e.f", "u2", "password2", none, true, false⟩

/-- The row `create_user allOk st0 exCreate1` persists. -/
def exUserA : UserRec :=
  { id := some 1
    email := "a@b.c"
    username := "u1"
    hashed_password := "bcrypt$password1"
    full_name := none
    is_active := true
    is_superuser := false
    created_at := some "0"
    updated_at := some "0" }

/-- The in-memory instance `create_user` holds at cache-population time
(before the INSERT is flushed). -/
def exPendingA : UserRec :=
  { id := none
    email := "a@b.c"
    username := "u1"
    hashed_password := "bcrypt$password1"
    full_name := none
    is_active := true
    is_superuser := false
    created_at := none
    updated_at := none }

/-! ## Helper lemmas for the validator characterization -/

theorem isinstInt_iff (v : Option PyVal) :
    isinstInt v = true ↔
      (∃ n : Int, v = some (.vint n)) ∨ (∃ b : Bool, v = some (.vbool b)) := by
  cases v with
  | none => simp [isinstInt]
  | some pv => cases pv <;> simp [isinstInt]

theorem isinstStr_iff (v : Option PyVal) :
    isinstStr v = true ↔ ∃ s : String, v = some (.vstr s) := by
  cases v with
  | none => simp [isinstStr]
  | some pv => cases pv <;> simp [isinstStr]

theorem versionAccepted_iff (v : Option PyVal) :
    versionAccepted v = true ↔
      (v = some (.vstr "1.0") ∨ v = some (.vstr "1.1")) := by
  cases v with
  | none => simp [versionAccepted]
  | some pv =>
    cases pv <;> simp [versionAccepted]

/-- A well-formed-looking entry whose `id` is the boolean `true`:
`isinstance(True, int)` holds in Python, so the validator accepts it. -/
def exBoolIdDict : Dict :=
  [("id", .vbool true), ("email", .vstr "a@b.c"), ("username", .vstr "u1"),
   ("full_name", .vnull), ("is_active", .vbool true), ("is_superuser", .vbool false),
   ("created_at", .vstr "0"), ("updated_at", .vstr "0"),
   ("_cache_version", .vstr "1.0")]

/-- C7 counterexample: the claim's characterization requires `id` to be
an integer, but the validator also accepts a boolean `id` (Python's
`bool` is a subclass of `int`): `exBoolIdDict` has `id = True`, which is
not an integer value, yet `_validate_cache_data` returns `True` on it. -/
theorem validator_characterization_cex :
    validate_cache_data exBoolIdDict = true ∧
      dictLookup exBoolIdDict "id" = some (.vbool true) := by
  decide

/-- C7 (amended): `_validate_cache_data d` returns true iff `d` contains
the nine fields `id`, `email`, `username`, `full_name`, `is_active`,
`is_superuser`, `created_at`, `updated_at` and `_cache_version`, with
`id` an integer or a boolean (Python's `bool` being an `int` subtype),
`email` a string, `username` a string, the version tag a string, and
the version tag equal to `"1.0"` or `"1.1"`. -/
theorem validator_characterization_amended (d : Dict) :
    validate_cache_data d = true ↔
      (dictHas d "id" = true ∧ dictHas d "email" = true ∧
       dictHas d "username" = true ∧ dictHas d "full_name" = true ∧
       dictHas d "is_active" = true ∧ dictHas d "is_superuser" = true ∧
       dictHas d "created_at" = true ∧ dictHas d "updated_at" = true ∧
       dictHas d "_cache_version" = true) ∧
      ((∃ n : Int, dictLookup d "id" = some (.vint n)) ∨
       (∃ b : Bool, dictLookup d "id" = some (.vbool b))) ∧
      (∃ s : String, dictLookup d "email" = some (.vstr s)) ∧
      (∃ s : String, dictLookup d "username" = some (.vstr s)) ∧
      (∃ s : String, dictLookup d "_cache_version" = some (.vstr s)) ∧
      (dictLookup d "_cache_version" = some (.vstr "1.0") ∨
       dictLookup d "_cache_version" = some (.vstr "1.1")) := by
  simp only [validate_cache_data, requiredFields, List.all_cons, List.all_nil,
    Bool.and_eq_true, Bool.and_true, isinstInt_iff, isinstStr_iff, versionAccepted_iff]
  tauto

/-- C8 counterexample: the cache projection of a concrete entity does
not contain the secret credential (`hashed_password`) among its fields,
contradicting the claim that every cached dict includes it. -/
theorem cache_entry_credential_cex :
    dictHas (user_to_dict exUserA) "hashed_password" = false := by
  decide

/-- C8 (amended): for every entity the cached dict consists of exactly
the nine fields `id`, `email`, `username`, `full_name`, `is_active`,
`is_superuser`, `created_at`, `updated_at`, `_cache_version`; the
secret credential (`hashed_password`) is never among them. -/
theorem cache_entry_excludes_credential_amended (u : UserRec) :
    (user_to_dict u).map Prod.fst = requiredFields ∧
      dictHas (user_to_dict u) "hashed_password" = false :=
  ⟨rfl, rfl⟩

/-- C2 counterexample: an operation raising a deadlock-flavoured
`OperationalError` on every execution has its body executed 4 times
(one initial attempt plus `MAX_RETRIES = 3` retries), not 3 as the
claim states. -/
theorem retry_bound_cex :
    (with_transaction_retry
        (fun _ => (.error (.operationalError "Deadlock found") : Except RetryErr Unit))).2.1 = 4 ∧
      (with_transaction_retry
        (fun _ => (.error (.operationalError "Deadlock found") : Except RetryErr Unit))).2.1 ≠ 3 := by
  have hd : containsDeadlock "Deadlock found" = true := by decide
  have h : with_transaction_retry
      (fun _ => (.error (.operationalError "Deadlock found") : Except RetryErr Unit)) =
      (.error (.operationalError "Deadlock found"), 4,
        [RETRY_BACKOFF * 1, RETRY_BACKOFF * 2, RETRY_BACKOFF * 3]) := by
    simp [with_transaction_retry, retryLoop, hd, MAX_RETRIES]
    norm_num
  rw [h]
  exact ⟨rfl, by decide⟩

/-- C2 (amended): an operation whose every execution raises an
`OperationalError` whose detail indicates a deadlock is executed
exactly 4 times (one initial attempt plus `MAX_RETRIES = 3` retries),
with sleeps of `0.1 s × k` before the `k`-th retry, and the final
deadlock error is then propagated to the caller unchanged. -/
theorem retry_bound_amended {α : Type} (f : Nat → Except RetryErr α) (e : String)
    (hf : ∀ n, f n = .error (.operationalError e))
    (hd : containsDeadlock e = true) :
    with_transaction_retry f =
      (.error (.operationalError e), 4,
        [RETRY_BACKOFF * 1, RETRY_BACKOFF * 2, RETRY_BACKOFF * 3]) := by
  simp [with_transaction_retry, retryLoop, hf, hd, MAX_RETRIES]
  norm_num

/-- Witness for C2 at a concrete always-deadlocking operation. -/
theorem retry_bound_witness :
    with_transaction_retry
        (fun _ => (.error (.operationalError "MySQL deadlock detected") : Except RetryErr Nat)) =
      (.error (.operationalError "MySQL deadlock detected"), 4,
        [RETRY_BACKOFF * 1, RETRY_BACKOFF * 2, RETRY_BACKOFF * 3]) :=
  retry_bound_amended _ "MySQL deadlock detected" (fun _ => rfl) (by decide)

/-- C5: the code caches the new user before the INSERT is flushed, so
the primary entry is written under the key `"user:None"` (not
`user:{assigned id}`), and both written entries carry the pre-flush
projection with `"id": null` and the literal string `"None"` for the
timestamps — while the returned entity does have the assigned id 1.
The code's own comment ("Using key='user:{id}' format ... as required")
and its unit test (which asserts `cache_set` is called with
`USER_KEY.format(mock_user.id)` for the assigned id) show the intent
the claim describes, so this is a code bug, not a spec error. -/
theorem create_cache_population_bug :
    (create_user allOk st0 exCreate1).2 = .ok exUserA ∧
      exUserA.id = some 1 ∧
      cLookup (create_user allOk st0 exCreate1).1.cache "user:1" = none ∧
      cLookup (create_user allOk st0 exCreate1).1.cache "user:None" =
        some ⟨.cdict (user_to_dict exPendingA), USER_CACHE_EXPIRE⟩ ∧
      cLookup (create_user allOk st0 exCreate1).1.cache "user:email:a@b.c" =
        some ⟨.cdict (user_to_dict exPendingA), USER_CACHE_EXPIRE⟩ ∧
      dictLookup (user_to_dict exPendingA) "id" = some .vnull ∧
      dictLookup (user_to_dict exPendingA) "created_at" = some (.vstr "None") := by
  decide

/-- A state in which the secondary cache key holds exactly the entry
the repository itself writes for `exUserA`. -/
def exStEmailHit : St :=
  { db := [exUserA]
    nextId := 2
    time := 1
    cache := [("user:email:a@b.c", ⟨.cdict (user_to_dict exUserA), USER_CACHE_EXPIRE⟩)]
    tick := 0
    dbQueries := 0 }

/-- C4: with the secondary key holding the repository's own projection
of the entity, `get_user_by_email` does NOT return from the cache: the
projection still contains `_cache_version`, which is not a `User`
column, so `User(**cached_user)` raises `TypeError`; the code deletes
the entry and answers from the persistence store (`dbQueries` goes from
0 to 1, and the result is the session-attached row, not a
cache-reconstructed instance).  The repository's own unit test asserts
the cache-hit path returns without `db.query` (it passes only because
the test mocks the `User` class), so this is a code bug. -/
theorem get_user_by_email_cache_hit_bug :
    (get_user_by_email allOk exStEmailHit "a@b.c").2 = .ok (some (.fromDb exUserA)) ∧
      (get_user_by_email allOk exStEmailHit "a@b.c").1.dbQueries = 1 := by
  decide

/-! ## State-projection toolbox for the cache primitives -/

@[simp]
theorem cacheGetP_fst (o : Oracle) (st : St) (k : String) :
    (cacheGetP o st k).1 = {st with tick := st.tick + 1} := by
  simp only [cacheGetP]
  split
  · rfl
  · split
    · rfl
    · split <;> rfl

@[simp]
theorem cacheSetP_db (o : Oracle) (st : St) (k : String) (v : CacheVal) (ttl : Nat) :
    (cacheSetP o st k v ttl).1.db = st.db := by
  simp only [cacheSetP]
  split <;> rfl

@[simp]
theorem cacheSetP_nextId (o : Oracle) (st : St) (k : String) (v : CacheVal) (ttl : Nat) :
    (cacheSetP o st k v ttl).1.nextId = st.nextId := by
  simp only [cacheSetP]
  split <;> rfl

@[simp]
theorem cacheSetP_time (o : Oracle) (st : St) (k : String) (v : CacheVal) (ttl : Nat) :
    (cacheSetP o st k v ttl).1.time = st.time := by
  simp only [cacheSetP]
  split <;> rfl

@[simp]
theorem cacheSetP_dbQueries (o : Oracle) (st : St) (k : String) (v : CacheVal) (ttl : Nat) :
    (cacheSetP o st k v ttl).1.dbQueries = st.dbQueries := by
  simp only [cacheSetP]
  split <;> rfl

@[simp]
theorem cacheDeleteP_db (o : Oracle) (st : St) (k : String) :
    (cacheDeleteP o st k).1.db = st.db := by
  simp only [cacheDeleteP]
  split <;> rfl

@[simp]
theorem cacheDeleteP_nextId (o : Oracle) (st : St) (k : String) :
    (cacheDeleteP o st k).1.nextId = st.nextId := by
  simp only [cacheDeleteP]
  split <;> rfl

@[simp]
theorem cacheDeleteP_time (o : Oracle) (st : St) (k : String) :
    (cacheDeleteP o st k).1.time = st.time := by
  simp only [cacheDeleteP]
  split <;> rfl

@[simp]
theorem cacheDeleteP_dbQueries (o : Oracle) (st : St) (k : String) :
    (cacheDeleteP o st k).1.dbQueries = st.dbQueries := by
  simp only [cacheDeleteP]
  split <;> rfl

@[simp]
theorem cacheDeleteTwice_db (o : Oracle) (st : St) (k : String) :
    (cacheDeleteTwice o st k).1.db = st.db := by
  simp only [cacheDeleteTwice]
  split <;> simp

@[simp]
theorem cacheDeleteTwice_nextId (o : Oracle) (st : St) (k : String) :
    (cacheDeleteTwice o st k).1.nextId = st.nextId := by
  simp only [cacheDeleteTwice]
  split <;> simp

@[simp]
theorem cacheDeleteTwice_time (o : Oracle) (st : St) (k : String) :
    (cacheDeleteTwice o st k).1.time = st.time := by
  simp only [cacheDeleteTwice]
  split <;> simp

@[simp]
theorem cacheDeleteTwice_dbQueries (o : Oracle) (st : St) (k : String) :
    (cacheDeleteTwice o st k).1.dbQueries = st.dbQueries := by
  simp only [cacheDeleteTwice]
  split <;> simp

@[simp]
theorem cacheClearPatternP_db (o : Oracle) (st : St) (p : String) :
    (cacheClearPatternP o st p).1.db = st.db := by
  simp only [cacheClearPatternP]
  split <;> rfl

@[simp]
theorem cacheClearPatternP_nextId (o : Oracle) (st : St) (p : String) :
    (cacheClearPatternP o st p).1.nextId = st.nextId := by
  simp only [cacheClearPatternP]
  split <;> rfl

@[simp]
theorem cacheClearPatternP_time (o : Oracle) (st : St) (p : String) :
    (cacheClearPatternP o st p).1.time = st.time := by
  simp only [cacheClearPatternP]
  split <;> rfl

@[simp]
theorem cacheClearPatternP_dbQueries (o : Oracle) (st : St) (p : String) :
    (cacheClearPatternP o st p).1.dbQueries = st.dbQueries := by
  simp only [cacheClearPatternP]
  split <;> rfl

@[simp]
theorem cacheMultiSetP_db (o : Oracle) (st : St) (kvs : List (String × CacheVal)) (ttl : Nat) :
    (cacheMultiSetP o st kvs ttl).1.db = st.db := by
  simp only [cacheMultiSetP]
  split <;> rfl

@[simp]
theorem cacheMultiSetP_nextId (o : Oracle) (st : St) (kvs : List (String × CacheVal)) (ttl : Nat) :
    (cacheMultiSetP o st kvs ttl).1.nextId = st.nextId := by
  simp only [cacheMultiSetP]
  split <;> rfl

@[simp]
theorem cacheMultiSetP_time (o : Oracle) (st : St) (kvs : List (String × CacheVal)) (ttl : Nat) :
    (cacheMultiSetP o st kvs ttl).1.time = st.time := by
  simp only [cacheMultiSetP]
  split <;> rfl

@[simp]
theorem cacheMultiSetP_dbQueries (o : Oracle) (st : St) (kvs : List (String × CacheVal)) (ttl : Nat) :
    (cacheMultiSetP o st kvs ttl).1.dbQueries = st.dbQueries := by
  simp only [cacheMultiSetP]
  split <;> rfl

@[simp]
theorem updateCachePhase_db (o : Oracle) (st : St) (uid : Nat) (oe : String)
    (nd : Dict) (ne : String) : (updateCachePhase o st uid oe nd ne).db = st.db := by
  simp [updateCachePhase]

@[simp]
theorem updateCachePhase_nextId (o : Oracle) (st : St) (uid : Nat) (oe : String)
    (nd : Dict) (ne : String) : (updateCachePhase o st uid oe nd ne).nextId = st.nextId := by
  simp [updateCachePhase]

@[simp]
theorem updateCachePhase_time (o : Oracle) (st : St) (uid : Nat) (oe : String)
    (nd : Dict) (ne : String) : (updateCachePhase o st uid oe nd ne).time = st.time := by
  simp [updateCachePhase]

theorem cLookup_cErase_self (c : CState) (k : String) : cLookup (cErase c k) k = none := by
  induction c with
  | nil => rfl
  | cons p rest ih =>
    by_cases h : p.1 = k
    · simpa [cErase, h] using ih
    · simpa [cErase, cLookup, h] using ih

/-! ## Persistence helper lemmas -/

theorem dbFindById_mem {l : List UserRec} {uid : Nat} {u : UserRec}
    (h : dbFindById l uid = some u) : u ∈ l ∧ u.id = some uid := by
  induction l with
  | nil => simp [dbFindById] at h
  | cons v rest ih =>
    by_cases hv : v.id = some uid
    · simp [dbFindById, hv] at h
      subst h
      exact ⟨List.mem_cons_self v rest, hv⟩
    · simp [dbFindById, hv] at h
      rcases ih h with ⟨h1, h2⟩
      exact ⟨List.mem_cons_of_mem v h1, h2⟩

theorem mem_replaceFirstById_of_ne {l : List UserRec} {uid : Nat} {w v : UserRec}
    (hw : w ∈ l) (hne : w.id ≠ some uid) : w ∈ replaceFirstById l uid v := by
  induction l with
  | nil => simp at hw
  | cons x rest ih =>
    rcases List.mem_cons.mp hw with h | h
    · subst h
      simp [replaceFirstById, hne]
    · by_cases hx : x.id = some uid
      · simp [replaceFirstById, hx]
        exact Or.inr h
      · simp [replaceFirstById, hx]
        exact Or.inr (ih h)

theorem self_mem_replaceFirstById {l : List UserRec} {uid : Nat} {t : UserRec}
    (h : dbFindById l uid = some t) (v : UserRec) : v ∈ replaceFirstById l uid v := by
  induction l with
  | nil => simp [dbFindById] at h
  | cons x rest ih =>
    by_cases hx : x.id = some uid
    · simp [replaceFirstById, hx]
    · simp [dbFindById, hx] at h
      simp [replaceFirstById, hx]
      exact Or.inr (ih h)

/-- The uniqueness invariant of the claim, as a proposition on the
persisted table: pairwise distinct emails under case-insensitive
comparison and pairwise distinct usernames under case-sensitive
comparison. -/
def UniqueInv (l : List UserRec) : Prop :=
  l.Pairwise (fun u v => strLower u.email ≠ strLower v.email ∧ u.username ≠ v.username)

theorem rowsCompatible_iff (u v : UserRec) :
    rowsCompatible u v = true ↔
      (strLower u.email ≠ strLower v.email ∧ u.username ≠ v.username) := by
  simp [rowsCompatible, emailEqCi]

theorem storeUniqueOK_iff (l : List UserRec) :
    storeUniqueOK l = true ↔ UniqueInv l := by
  induction l with
  | nil => simp [storeUniqueOK, UniqueInv]
  | cons u rest ih =>
    simp only [storeUniqueOK, Bool.and_eq_true, List.all_eq_true, UniqueInv,
      List.pairwise_cons, rowsCompatible_iff]
    rw [← UniqueInv, ← ih]

/-! ## Absence-is-never-cached lemmas -/

theorem deleteDbPhase_absent (o : Oracle) (s : St) (uid : Nat) (key : String)
    (hNo : dbFindById s.db uid = none) :
    (getUserDbPhase o (cacheDeleteP o s key).1 uid true).2 = .ok none ∧
      (cLookup (getUserDbPhase o (cacheDeleteP o s key).1 uid true).1.cache key =
          cLookup s.cache key ∨
        cLookup (getUserDbPhase o (cacheDeleteP o s key).1 uid true).1.cache key = none) := by
  have hdb : (cacheDeleteP o s key).1.db = s.db := cacheDeleteP_db o s key
  refine ⟨by simp [getUserDbPhase, hdb, hNo], ?_⟩
  cases hf : o s.tick
  · right
    simp [getUserDbPhase, hdb, hNo, cacheDeleteP, hf, cLookup_cErase_self]
  · left
    simp [getUserDbPhase, hdb, hNo, cacheDeleteP, hf]

/-- Running `get_user` on an id absent from the table never writes a cache
entry under the queried key: the entry afterwards is the one from
before, or has been deleted (corrupted-entry cleanup). -/
theorem get_user_absent_nowrite (o : Oracle) (st : St) (uid : Nat)
    (hNo : dbFindById st.db uid = none) :
    cLookup (get_user o st uid).1.cache (USER_KEY (toString uid)) =
        cLookup st.cache (USER_KEY (toString uid)) ∨
      cLookup (get_user o st uid).1.cache (USER_KEY (toString uid)) = none := by
  cases ho : o st.tick
  · rcases hcl : cLookup st.cache (USER_KEY (toString uid)) with _ | ⟨val, ttl⟩
    · simp [get_user, cacheGetP, ho, hcl, getUserDbPhase, hNo]
    · cases val with
      | corrupt => simp [get_user, cacheGetP, ho, hcl]
      | cdict d =>
        cases htr : cacheTruthy (CacheVal.cdict d)
        · simp [get_user, cacheGetP, ho, hcl, htr, getUserDbPhase, hNo]
        · by_cases hval : validate_cache_data d = true
          · by_cases hkw : kwargsAccepted (dictStrip d) = true
            · simp [get_user, cacheGetP, ho, hcl, htr, hval, hkw]
            · have H := (deleteDbPhase_absent o {st with tick := st.tick + 1} uid
                (USER_KEY (toString uid)) (by simpa using hNo)).2
              simp only [hcl] at H
              simpa [get_user, cacheGetP, ho, hcl, htr, hval, hkw] using H
          · have H := (deleteDbPhase_absent o {st with tick := st.tick + 1} uid
              (USER_KEY (toString uid)) (by simpa using hNo)).2
            simp only [hcl] at H
            simpa [get_user, cacheGetP, ho, hcl, htr, hval] using H
      | clist ds =>
        cases htr : cacheTruthy (CacheVal.clist ds)
        · simp [get_user, cacheGetP, ho, hcl, htr, getUserDbPhase, hNo]
        · have H := (deleteDbPhase_absent o {st with tick := st.tick + 1} uid
            (USER_KEY (toString uid)) (by simpa using hNo)).2
          simp only [hcl] at H
          simpa [get_user, cacheGetP, ho, hcl, htr] using H
      | cnum n =>
        cases htr : cacheTruthy (CacheVal.cnum n)
        · simp [get_user, cacheGetP, ho, hcl, htr, getUserDbPhase, hNo]
        · have H := (deleteDbPhase_absent o {st with tick := st.tick + 1} uid
            (USER_KEY (toString uid)) (by simpa using hNo)).2
          simp only [hcl] at H
          simpa [get_user, cacheGetP, ho, hcl, htr] using H
  · simp [get_user, cacheGetP, ho, getUserDbPhase, hNo]

/-- Running `get_user` on an id absent from both the table and the cache:
returns `None`, queries the database, and still leaves no entry under
the key — so the next read goes to persistence again. -/
theorem get_user_absent_fresh (o : Oracle) (st : St) (uid : Nat)
    (hNo : dbFindById st.db uid = none)
    (hPre : cLookup st.cache (USER_KEY (toString uid)) = none) :
    (get_user o st uid).2 = .ok none ∧
      cLookup (get_user o st uid).1.cache (USER_KEY (toString uid)) = none ∧
      (get_user o st uid).1.dbQueries = st.dbQueries + 1 := by
  cases ho : o st.tick <;>
    simp [get_user, cacheGetP, ho, hPre, getUserDbPhase, hNo]

theorem deleteEmailDbPhase_absent (o : Oracle) (s : St) (email key : String)
    (hNo : dbFindByEmail s.db email = none) :
    (getUserByEmailDbPhase o (cacheDeleteP o s key).1 email).2 = .ok none ∧
      (cLookup (getUserByEmailDbPhase o (cacheDeleteP o s key).1 email).1.cache key =
          cLookup s.cache key ∨
        cLookup (getUserByEmailDbPhase o (cacheDeleteP o s key).1 email).1.cache key = none) := by
  have hdb : (cacheDeleteP o s key).1.db = s.db := cacheDeleteP_db o s key
  refine ⟨by simp [getUserByEmailDbPhase, hdb, hNo], ?_⟩
  cases hf : o s.tick
  · right
    simp [getUserByEmailDbPhase, hdb, hNo, cacheDeleteP, hf, cLookup_cErase_self]
  · left
    simp [getUserByEmailDbPhase, hdb, hNo, cacheDeleteP, hf]

/-- Running `get_user_by_email` on an email absent from the table never writes
a cache entry under the queried secondary key. -/
theorem get_user_by_email_absent_nowrite (o : Oracle) (st : St) (email : String)
    (hNo : dbFindByEmail st.db email = none) :
    cLookup (get_user_by_email o st email).1.cache (USER_EMAIL_KEY email) =
        cLookup st.cache (USER_EMAIL_KEY email) ∨
      cLookup (get_user_by_email o st email).1.cache (USER_EMAIL_KEY email) = none := by
  cases ho : o st.tick
  · rcases hcl : cLookup st.cache (USER_EMAIL_KEY email) with _ | ⟨val, ttl⟩
    · simp [get_user_by_email, cacheGetP, ho, hcl, getUserByEmailDbPhase, hNo]
    · cases val with
      | corrupt => simp [get_user_by_email, cacheGetP, ho, hcl]
      | cdict d =>
        cases htr : cacheTruthy (CacheVal.cdict d)
        · simp [get_user_by_email, cacheGetP, ho, hcl, htr, getUserByEmailDbPhase, hNo]
        · by_cases hkw : kwargsAccepted d = true
          · simp [get_user_by_email, cacheGetP, ho, hcl, htr, hkw]
          · have H := (deleteEmailDbPhase_absent o {st with tick := st.tick + 1} email
              (USER_EMAIL_KEY email) (by simpa using hNo)).2
            simp only [hcl] at H
            simpa [get_user_by_email, cacheGetP, ho, hcl, htr, hkw] using H
      | clist ds =>
        cases htr : cacheTruthy (CacheVal.clist ds)
        · simp [get_user_by_email, cacheGetP, ho, hcl, htr, getUserByEmailDbPhase, hNo]
        · have H := (deleteEmailDbPhase_absent o {st with tick := st.tick + 1} email
            (USER_EMAIL_KEY email) (by simpa using hNo)).2
          simp only [hcl] at H
          simpa [get_user_by_email, cacheGetP, ho, hcl, htr] using H
      | cnum n =>
        cases htr : cacheTruthy (CacheVal.cnum n)
        · simp [get_user_by_email, cacheGetP, ho, hcl, htr, getUserByEmailDbPhase, hNo]
        · have H := (deleteEmailDbPhase_absent o {st with tick := st.tick + 1} email
            (USER_EMAIL_KEY email) (by simpa using hNo)).2
          simp only [hcl] at H
          simpa [get_user_by_email, cacheGetP, ho, hcl, htr] using H
  · simp [get_user_by_email, cacheGetP, ho, getUserByEmailDbPhase, hNo]

/-- Running `get_user_by_email` on an email absent from both table and cache. -/
theorem get_user_by_email_absent_fresh (o : Oracle) (st : St) (email : String)
    (hNo : dbFindByEmail st.db email = none)
    (hPre : cLookup st.cache (USER_EMAIL_KEY email) = none) :
    (get_user_by_email o st email).2 = .ok none ∧
      cLookup (get_user_by_email o st email).1.cache (USER_EMAIL_KEY email) = none ∧
      (get_user_by_email o st email).1.dbQueries = st.dbQueries + 1 := by
  cases ho : o st.tick <;>
    simp [get_user_by_email, cacheGetP, ho, hPre, getUserByEmailDbPhase, hNo]

theorem deleteListDbPhase_absent (o : Oracle) (s : St) (skip limit : Int) (key : String)
    (hEmpty : ((s.db.drop skip.toNat).take limit.toNat).isEmpty = true) :
    (getUsersDbPhase o (cacheDeleteP o s key).1 skip limit).2 = .ok [] ∧
      (cLookup (getUsersDbPhase o (cacheDeleteP o s key).1 skip limit).1.cache key =
          cLookup s.cache key ∨
        cLookup (getUsersDbPhase o (cacheDeleteP o s key).1 skip limit).1.cache key = none) := by
  have hdb : (cacheDeleteP o s key).1.db = s.db := cacheDeleteP_db o s key
  refine ⟨by simp [getUsersDbPhase, hdb, hEmpty], ?_⟩
  cases hf : o s.tick
  · right
    simp [getUsersDbPhase, hdb, hEmpty, cacheDeleteP, hf, cLookup_cErase_self]
  · left
    simp [getUsersDbPhase, hdb, hEmpty, cacheDeleteP, hf]

/-- Running `get_users` on a page that turns out empty never writes a cache
entry under the queried list key. -/
theorem get_users_empty_nowrite (o : Oracle) (st : St) (skip limit : Int)
    (hskip : ¬ skip < 0) (hlimit : ¬ limit ≤ 0)
    (hEmpty : ((st.db.drop skip.toNat).take limit.toNat).isEmpty = true) :
    cLookup (get_users o st skip limit).1.cache (USERS_LIST_KEY skip limit) =
        cLookup st.cache (USERS_LIST_KEY skip limit) ∨
      cLookup (get_users o st skip limit).1.cache (USERS_LIST_KEY skip limit) = none := by
  cases ho : o st.tick
  · rcases hcl : cLookup st.cache (USERS_LIST_KEY skip limit) with _ | ⟨val, ttl⟩
    · simp [get_users, cacheGetP, ho, hcl, getUsersDbPhase, hskip, hlimit, hEmpty]
    · cases val with
      | corrupt => simp [get_users, cacheGetP, ho, hcl, hskip, hlimit]
      | clist ds =>
        cases htr : cacheTruthy (CacheVal.clist ds)
        · simp [get_users, cacheGetP, ho, hcl, htr, getUsersDbPhase, hskip, hlimit, hEmpty]
        · by_cases hkw : ds.all kwargsAccepted = true
          · simp [get_users, cacheGetP, ho, hcl, htr, hkw, hskip, hlimit]
          · have H := (deleteListDbPhase_absent o {st with tick := st.tick + 1} skip limit
              (USERS_LIST_KEY skip limit) (by simpa using hEmpty)).2
            simp only [hcl] at H
            simpa [get_users, cacheGetP, ho, hcl, htr, hkw, hskip, hlimit] using H
      | cdict d =>
        cases htr : cacheTruthy (CacheVal.cdict d)
        · simp [get_users, cacheGetP, ho, hcl, htr, getUsersDbPhase, hskip, hlimit, hEmpty]
        · have H := (deleteListDbPhase_absent o {st with tick := st.tick + 1} skip limit
            (USERS_LIST_KEY skip limit) (by simpa using hEmpty)).2
          simp only [hcl] at H
          simpa [get_users, cacheGetP, ho, hcl, htr, hskip, hlimit] using H
      | cnum n =>
        cases htr : cacheTruthy (CacheVal.cnum n)
        · simp [get_users, cacheGetP, ho, hcl, htr, getUsersDbPhase, hskip, hlimit, hEmpty]
        · have H := (deleteListDbPhase_absent o {st with tick := st.tick + 1} skip limit
            (USERS_LIST_KEY skip limit) (by simpa using hEmpty)).2
          simp only [hcl] at H
          simpa [get_users, cacheGetP, ho, hcl, htr, hskip, hlimit] using H
  · simp [get_users, cacheGetP, ho, getUsersDbPhase, hskip, hlimit, hEmpty]

/-- Running `get_users` on an empty page with no pre-existing list entry. -/
theorem get_users_empty_fresh (o : Oracle) (st : St) (skip limit : Int)
    (hskip : ¬ skip < 0) (hlimit : ¬ limit ≤ 0)
    (hEmpty : ((st.db.drop skip.toNat).take limit.toNat).isEmpty = true)
    (hPre : cLookup st.cache (USERS_LIST_KEY skip limit) = none) :
    (get_users o st skip limit).2 = .ok [] ∧
      cLookup (get_users o st skip limit).1.cache (USERS_LIST_KEY skip limit) = none ∧
      (get_users o st skip limit).1.dbQueries = st.dbQueries + 1 := by
  cases ho : o st.tick <;>
    simp [get_users, cacheGetP, ho, hPre, getUsersDbPhase, hskip, hlimit, hEmpty]

/-- C10: for every read operation — by id, by email, or list — that
finds no matching entity (or an empty page) in the persistence store,
no cache entry is written for the queried key (the entry afterwards is
the pre-existing one or has been deleted, never a new value); and when
additionally no entry existed beforehand, the read returns the empty
result, queries persistence, and leaves the key absent — so every
subsequent read of a still-missing entity queries persistence again
rather than being answered from the cache. -/
theorem absence_never_cached :
    (∀ (o : Oracle) (st : St) (uid : Nat), dbFindById st.db uid = none →
      (cLookup (get_user o st uid).1.cache (USER_KEY (toString uid)) =
          cLookup st.cache (USER_KEY (toString uid)) ∨
        cLookup (get_user o st uid).1.cache (USER_KEY (toString uid)) = none) ∧
      (cLookup st.cache (USER_KEY (toString uid)) = none →
        (get_user o st uid).2 = .ok none ∧
        cLookup (get_user o st uid).1.cache (USER_KEY (toString uid)) = none ∧
        (get_user o st uid).1.dbQueries = st.dbQueries + 1)) ∧
    (∀ (o : Oracle) (st : St) (email : String), dbFindByEmail st.db email = none →
      (cLookup (get_user_by_email o st email).1.cache (USER_EMAIL_KEY email) =
          cLookup st.cache (USER_EMAIL_KEY email) ∨
        cLookup (get_user_by_email o st email).1.cache (USER_EMAIL_KEY email) = none) ∧
      (cLookup st.cache (USER_EMAIL_KEY email) = none →
        (get_user_by_email o st email).2 = .ok none ∧
        cLookup (get_user_by_email o st email).1.cache (USER_EMAIL_KEY email) = none ∧
        (get_user_by_email o st email).1.dbQueries = st.dbQueries + 1)) ∧
    (∀ (o : Oracle) (st : St) (skip limit : Int), ¬ skip < 0 → ¬ limit ≤ 0 →
      ((st.db.drop skip.toNat).take limit.toNat).isEmpty = true →
      (cLookup (get_users o st skip limit).1.cache (USERS_LIST_KEY skip limit) =
          cLookup st.cache (USERS_LIST_KEY skip limit) ∨
        cLookup (get_users o st skip limit).1.cache (USERS_LIST_KEY skip limit) = none) ∧
      (cLookup st.cache (USERS_LIST_KEY skip limit) = none →
        (get_users o st skip limit).2 = .ok [] ∧
        cLookup (get_users o st skip limit).1.cache (USERS_LIST_KEY skip limit) = none ∧
        (get_users o st skip limit).1.dbQueries = st.dbQueries + 1)) := by
  refine ⟨fun o st uid hNo => ⟨get_user_absent_nowrite o st uid hNo, ?_⟩,
    fun o st email hNo => ⟨get_user_by_email_absent_nowrite o st email hNo, ?_⟩,
    fun o st skip limit h1 h2 hEmpty =>
      ⟨get_users_empty_nowrite o st skip limit h1 h2 hEmpty, ?_⟩⟩
  · exact fun hPre => get_user_absent_fresh o st uid hNo hPre
  · exact fun hPre => get_user_by_email_absent_fresh o st email hNo hPre
  · exact fun hPre => get_users_empty_fresh o st skip limit h1 h2 hEmpty hPre

/-- Witness for C10 at the empty state. -/
theorem absence_never_cached_witness :
    ((cLookup (get_user allOk st0 7).1.cache (USER_KEY (toString 7)) =
        cLookup st0.cache (USER_KEY (toString 7)) ∨
      cLookup (get_user allOk st0 7).1.cache (USER_KEY (toString 7)) = none) ∧
      ((get_user allOk st0 7).2 = .ok none ∧
        cLookup (get_user allOk st0 7).1.cache (USER_KEY (toString 7)) = none ∧
        (get_user allOk st0 7).1.dbQueries = st0.dbQueries + 1)) ∧
    ((cLookup (get_user_by_email allOk st0 "x@y.z").1.cache (USER_EMAIL_KEY "x@y.z") =
        cLookup st0.cache (USER_EMAIL_KEY "x@y.z") ∨
      cLookup (get_user_by_email allOk st0 "x@y.z").1.cache (USER_EMAIL_KEY "x@y.z") = none) ∧
      ((get_user_by_email allOk st0 "x@y.z").2 = .ok none ∧
        cLookup (get_user_by_email allOk st0 "x@y.z").1.cache (USER_EMAIL_KEY "x@y.z") = none ∧
        (get_user_by_email allOk st0 "x@y.z").1.dbQueries = st0.dbQueries + 1)) ∧
    ((cLookup (get_users allOk st0 0 5).1.cache (USERS_LIST_KEY 0 5) =
        cLookup st0.cache (USERS_LIST_KEY 0 5) ∨
      cLookup (get_users allOk st0 0 5).1.cache (USERS_LIST_KEY 0 5) = none) ∧
      ((get_users allOk st0 0 5).2 = .ok [] ∧
        cLookup (get_users allOk st0 0 5).1.cache (USERS_LIST_KEY 0 5) = none ∧
        (get_users allOk st0 0 5).1.dbQueries = st0.dbQueries + 1)) :=
  ⟨⟨(absence_never_cached.1 allOk st0 7 (by decide)).1,
    (absence_never_cached.1 allOk st0 7 (by decide)).2 (by decide)⟩,
   ⟨(absence_never_cached.2.1 allOk st0 "x@y.z" (by decide)).1,
    (absence_never_cached.2.1 allOk st0 "x@y.z" (by decide)).2 (by decide)⟩,
   ⟨(absence_never_cached.2.2 allOk st0 0 5 (by decide) (by decide) (by decide)).1,
    (absence_never_cached.2.2 allOk st0 0 5 (by decide) (by decide) (by decide)).2 (by decide)⟩⟩

/-! ## Pagination preconditions (C9) -/

theorem getUsersDbPhase_isOk (o : Oracle) (s : St) (skip limit : Int) :
    ∃ l, (getUsersDbPhase o s skip limit).2 = .ok l := by
  by_cases he : ((s.db.drop skip.toNat).take limit.toNat).isEmpty = true
  · exact ⟨[], by simp [getUsersDbPhase, he]⟩
  · exact ⟨((s.db.drop skip.toNat).take limit.toNat).map .fromDb,
      by simp [getUsersDbPhase, he]⟩

theorem get_users_valid_shape (o : Oracle) (st : St) (skip limit : Int)
    (hn1 : ¬ skip < 0) (hn2 : ¬ limit ≤ 0) :
    (∃ l, (get_users o st skip limit).2 = .ok l) ∨
      (get_users o st skip limit).2 = .err .cacheDeserializeErr := by
  cases ho : o st.tick
  · rcases hcl : cLookup st.cache (USERS_LIST_KEY skip limit) with _ | ⟨val, ttl⟩
    · obtain ⟨l, hl⟩ := getUsersDbPhase_isOk o {st with tick := st.tick + 1} skip limit
      exact Or.inl ⟨l, by simp [get_users, cacheGetP, ho, hcl, hn1, hn2]; exact hl⟩
    · cases val with
      | corrupt =>
        exact Or.inr (by simp [get_users, cacheGetP, ho, hcl, hn1, hn2])
      | clist ds =>
        cases htr : cacheTruthy (CacheVal.clist ds)
        · obtain ⟨l, hl⟩ := getUsersDbPhase_isOk o {st with tick := st.tick + 1} skip limit
          exact Or.inl ⟨l, by simp [get_users, cacheGetP, ho, hcl, htr, hn1, hn2]; exact hl⟩
        · by_cases hkw : ds.all kwargsAccepted = true
          · exact Or.inl ⟨ds.map .fromCache,
              by simp [get_users, cacheGetP, ho, hcl, htr, hkw, hn1, hn2]⟩
          · obtain ⟨l, hl⟩ := getUsersDbPhase_isOk o
              (cacheDeleteP o {st with tick := st.tick + 1} (USERS_LIST_KEY skip limit)).1
              skip limit
            exact Or.inl ⟨l,
              by simp [get_users, cacheGetP, ho, hcl, htr, hkw, hn1, hn2]; exact hl⟩
      | cdict d =>
        cases htr : cacheTruthy (CacheVal.cdict d)
        · obtain ⟨l, hl⟩ := getUsersDbPhase_isOk o {st with tick := st.tick + 1} skip limit
          exact Or.inl ⟨l, by simp [get_users, cacheGetP, ho, hcl, htr, hn1, hn2]; exact hl⟩
        · obtain ⟨l, hl⟩ := getUsersDbPhase_isOk o
            (cacheDeleteP o {st with tick := st.tick + 1} (USERS_LIST_KEY skip limit)).1
            skip limit
          exact Or.inl ⟨l, by simp [get_users, cacheGetP, ho, hcl, htr, hn1, hn2]; exact hl⟩
      | cnum n =>
        cases htr : cacheTruthy (CacheVal.cnum n)
        · obtain ⟨l, hl⟩ := getUsersDbPhase_isOk o {st with tick := st.tick + 1} skip limit
          exact Or.inl ⟨l, by simp [get_users, cacheGetP, ho, hcl, htr, hn1, hn2]; exact hl⟩
        · obtain ⟨l, hl⟩ := getUsersDbPhase_isOk o
            (cacheDeleteP o {st with tick := st.tick + 1} (USERS_LIST_KEY skip limit)).1
            skip limit
          exact Or.inl ⟨l, by simp [get_users, cacheGetP, ho, hcl, htr, hn1, hn2]; exact hl⟩
  · obtain ⟨l, hl⟩ := getUsersDbPhase_isOk o {st with tick := st.tick + 1} skip limit
    exact Or.inl ⟨l, by simp [get_users, cacheGetP, ho, hn1, hn2]; exact hl⟩

/-- C9: a negative `skip` (with any `limit`) and a non-positive `limit`
(with any non-negative `skip`) are rejected with the invalid-argument
`ValueError` while the state — cache, database, call counters — is left
exactly as it was, i.e. before any cache or persistence call; for
`skip ≥ 0` and `limit > 0` no invalid-argument error is ever raised. -/
theorem pagination_preconditions :
    (∀ (o : Oracle) (st : St) (skip limit : Int), skip < 0 →
      get_users o st skip limit = (st, .err (.invalidArg "skip must be non-negative"))) ∧
    (∀ (o : Oracle) (st : St) (skip limit : Int), 0 ≤ skip → limit ≤ 0 →
      get_users o st skip limit = (st, .err (.invalidArg "limit must be positive"))) ∧
    (∀ (o : Oracle) (st : St) (skip limit : Int) (msg : String), 0 ≤ skip → 0 < limit →
      (get_users o st skip limit).2 ≠ .err (.invalidArg msg)) := by
  refine ⟨fun o st skip limit h => by simp [get_users, h], ?_, ?_⟩
  · intro o st skip limit h1 h2
    have hn1 : ¬ skip < 0 := not_lt.mpr h1
    simp [get_users, hn1, h2]
  · intro o st skip limit msg h1 h2 hcontra
    have hn1 : ¬ skip < 0 := not_lt.mpr h1
    have hn2 : ¬ limit ≤ 0 := not_le.mpr h2
    rcases get_users_valid_shape o st skip limit hn1 hn2 with ⟨l, hl⟩ | hl <;>
      simp [hl] at hcontra

/-- Witness for C9 at the boundary inputs of the spec. -/
theorem pagination_preconditions_witness :
    get_users allOk st0 (-1) 10 = (st0, .err (.invalidArg "skip must be non-negative")) ∧
      get_users allOk st0 0 0 = (st0, .err (.invalidArg "limit must be positive")) ∧
      (get_users allOk st0 0 100).2 ≠ .err (.invalidArg "skip must be non-negative") :=
  ⟨pagination_preconditions.1 allOk st0 (-1) 10 (by decide),
   pagination_preconditions.2.1 allOk st0 0 0 (by decide) (by decide),
   pagination_preconditions.2.2 allOk st0 0 100 "skip must be non-negative"
     (by decide) (by decide)⟩

/-! ## Version tolerance (C6) -/

/-- An otherwise well-formed repository projection carrying version tag
`v`: the shape `_user_to_dict` emits, with the tag left free. -/
def repoProjection (n : Int) (em un : String) (fn : Option String)
    (ia isu : Bool) (ca ua v : String) : Dict :=
  [("id", .vint n), ("email", .vstr em), ("username", .vstr un),
   ("full_name", match fn with | some s => PyVal.vstr s | none => PyVal.vnull),
   ("is_active", .vbool ia), ("is_superuser", .vbool isu),
   ("created_at", .vstr ca), ("updated_at", .vstr ua),
   ("_cache_version", .vstr v)]

theorem cLookup_cInsert_self (c : CState) (k : String) (e : CEntry) :
    cLookup (cInsert c k e) k = some e := by
  simp [cInsert, cLookup]

/-- C6: with the primary entry holding an otherwise well-formed
repository projection, a `"1.0"` version tag makes `get_user` return
the cached entity (a transient `User` built from the dict with the tag
stripped) without evicting the entry or querying persistence; a `"0.9"`
tag makes it delete the key, read the row from persistence, and write a
fresh entry whose projection is tagged `"1.1"`. -/
theorem version_tolerance :
    (∀ (st : St) (uid : Nat) (n : Int) (em un : String) (fn : Option String)
      (ia isu : Bool) (ca ua : String) (ttl : Nat),
      cLookup st.cache (USER_KEY (toString uid)) =
          some ⟨.cdict (repoProjection n em un fn ia isu ca ua "1.0"), ttl⟩ →
      (get_user allOk st uid).2 =
          .ok (some (.fromCache (dictStrip (repoProjection n em un fn ia isu ca ua "1.0")))) ∧
        (get_user allOk st uid).1.cache = st.cache ∧
        (get_user allOk st uid).1.dbQueries = st.dbQueries) ∧
    (∀ (st : St) (uid : Nat) (n : Int) (em un : String) (fn : Option String)
      (ia isu : Bool) (ca ua : String) (ttl : Nat) (u : UserRec),
      cLookup st.cache (USER_KEY (toString uid)) =
          some ⟨.cdict (repoProjection n em un fn ia isu ca ua "0.9"), ttl⟩ →
      dbFindById st.db uid = some u →
      (get_user allOk st uid).2 = .ok (some (.fromDb u)) ∧
        cLookup (get_user allOk st uid).1.cache (USER_KEY (toString uid)) =
          some ⟨.cdict (user_to_dict u), USER_CACHE_EXPIRE⟩ ∧
        dictLookup (user_to_dict u) "_cache_version" = some (.vstr "1.1") ∧
        (get_user allOk st uid).1.dbQueries = st.dbQueries + 1) := by
  constructor
  · intro st uid n em un fn ia isu ca ua ttl hcl
    have hval : validate_cache_data (repoProjection n em un fn ia isu ca ua "1.0") = true := by
      simp [validate_cache_data, repoProjection, requiredFields, dictHas, dictLookup,
        isinstInt, isinstStr, versionAccepted]
    have hkw : kwargsAccepted (dictStrip (repoProjection n em un fn ia isu ca ua "1.0")) = true := by
      simp [kwargsAccepted, dictStrip, repoProjection, userColumns]
    have htr : cacheTruthy (CacheVal.cdict (repoProjection n em un fn ia isu ca ua "1.0")) = true := by
      simp [cacheTruthy, repoProjection]
    refine ⟨?_, ?_, ?_⟩ <;>
      simp [get_user, cacheGetP, allOk, hcl, hval, hkw, htr]
  · intro st uid n em un fn ia isu ca ua ttl u hcl hdb
    have hval : validate_cache_data (repoProjection n em un fn ia isu ca ua "0.9") = false := by
      simp [validate_cache_data, repoProjection, requiredFields, dictHas, dictLookup,
        isinstInt, isinstStr, versionAccepted]
    have htr : cacheTruthy (CacheVal.cdict (repoProjection n em un fn ia isu ca ua "0.9")) = true := by
      simp [cacheTruthy, repoProjection]
    refine ⟨?_, ?_, ?_, ?_⟩ <;>
      simp [get_user, cacheGetP, allOk, hcl, hval, htr, getUserDbPhase, hdb, cacheDeleteP,
        cacheSetP, cLookup_cInsert_self, user_to_dict, dictLookup]

/-- State whose primary entry for id 1 is a `"1.0"`-tagged projection. -/
def exStV10 : St :=
  { db := [exUserA]
    nextId := 2
    time := 1
    cache := [("user:1", ⟨.cdict (repoProjection 1 "a@b.c" "u1" none true false "0" "0" "1.0"),
      USER_CACHE_EXPIRE⟩)]
    tick := 0
    dbQueries := 0 }

/-- State whose primary entry for id 1 is a `"0.9"`-tagged projection. -/
def exStV09 : St :=
  { db := [exUserA]
    nextId := 2
    time := 1
    cache := [("user:1", ⟨.cdict (repoProjection 1 "a@b.c" "u1" none true false "0" "0" "0.9"),
      USER_CACHE_EXPIRE⟩)]
    tick := 0
    dbQueries := 0 }

/-- Witness for C6 at concrete `"1.0"` and `"0.9"` entries. -/
theorem version_tolerance_witness :
    ((get_user allOk exStV10 1).2 =
        .ok (some (.fromCache (dictStrip (repoProjection 1 "a@b.c" "u1" none true false "0" "0" "1.0")))) ∧
      (get_user allOk exStV10 1).1.cache = exStV10.cache ∧
      (get_user allOk exStV10 1).1.dbQueries = exStV10.dbQueries) ∧
    ((get_user allOk exStV09 1).2 = .ok (some (.fromDb exUserA)) ∧
      cLookup (get_user allOk exStV09 1).1.cache (USER_KEY (toString 1)) =
        some ⟨.cdict (user_to_dict exUserA), USER_CACHE_EXPIRE⟩ ∧
      dictLookup (user_to_dict exUserA) "_cache_version" = some (.vstr "1.1") ∧
      (get_user allOk exStV09 1).1.dbQueries = exStV09.dbQueries + 1) :=
  ⟨version_tolerance.1 exStV10 1 1 "a@b.c" "u1" none true false "0" "0"
      USER_CACHE_EXPIRE (by decide),
   version_tolerance.2 exStV09 1 1 "a@b.c" "u1" none true false "0" "0"
      USER_CACHE_EXPIRE exUserA (by decide) (by decide)⟩

/-! ## Cache-bypass reference semantics (C3)

The persistence-derived behaviour of each operation with the cache
removed, against which the all-cache-calls-fail runs are compared. -/

def dbOnlyCreate (db : List UserRec) (nid t : Nat) (d : UserCreate) :
    RRes UserRec × List UserRec :=
  if db.any (fun u => sqlILike d.email u.email) then
    (.err (.conflictErr ("Email address " ++ d.email ++ " is already registered")), db)
  else if db.any (fun u => decide (u.username = d.username)) then
    (.err (.conflictErr ("Username " ++ d.username ++ " is already taken")), db)
  else
    let flushed : UserRec :=
      { id := some nid
        email := strLower d.email
        username := d.username
        hashed_password := get_password_hash d.password
        full_name := d.full_name
        is_active := d.is_active
        is_superuser := d.is_superuser
        created_at := some (toString t)
        updated_at := some (toString t) }
    let db' := db ++ [flushed]
    if storeUniqueOK db' then (.ok flushed, db')
    else (.err (.conflictErr "User with this email or username already exists"), db)

def dbOnlyUpdate (db : List UserRec) (t : Nat) (uid : Nat) (p : UserUpdate) :
    RRes (Option UserRec) × List UserRec :=
  match dbFindById db uid with
  | none => (.ok none, db)
  | some u =>
    if emailConflictB db uid u.email p.email then
      (.err (.conflictErr "Email is already in use"), db)
    else if usernameConflictB db uid p.username then
      (.err (.conflictErr "Username is already in use"), db)
    else
      let uNew := applyUpdRow u p
      if uNew = u then (.ok (some u), db)
      else
        let flushed := {uNew with updated_at := some (toString t)}
        let db' := replaceFirstById db uid flushed
        if storeUniqueOK db' then (.ok (some flushed), db')
        else (.err .integrityErr, db)

def dbOnlyDelete (db : List UserRec) (uid : Nat) : RRes Bool × List UserRec :=
  match dbFindById db uid with
  | none => (.ok false, db)
  | some _ => (.ok true, removeFirstById db uid)

/-- Repackage a persistence-level optional row as the repository's
result type. -/
def asDbResultOpt : RRes (Option UserRec) → RRes (Option GotUser)
  | .ok (some u) => .ok (some (.fromDb u))
  | .ok none => .ok none
  | .err e => .err e

@[simp]
theorem updateCachePhase_allFail_cache (st : St) (uid : Nat) (oe : String)
    (nd : Dict) (ne : String) :
    (updateCachePhase allFail st uid oe nd ne).cache = st.cache := by
  simp [updateCachePhase, cacheDeleteTwice, cacheDeleteP, cacheSetP,
    cacheClearPatternP, allFail]

theorem bypass_get_user (st : St) (uid : Nat) :
    (get_user allFail st uid).2 = .ok ((dbFindById st.db uid).map GotUser.fromDb) ∧
      (get_user allFail st uid).1.cache = st.cache ∧
      (get_user allFail st uid).1.db = st.db := by
  rcases hdb : dbFindById st.db uid with _ | u <;>
    simp [get_user, cacheGetP, allFail, getUserDbPhase, hdb]

theorem bypass_get_user_by_email (st : St) (email : String) :
    (get_user_by_email allFail st email).2 =
        .ok ((dbFindByEmail st.db email).map GotUser.fromDb) ∧
      (get_user_by_email allFail st email).1.cache = st.cache ∧
      (get_user_by_email allFail st email).1.db = st.db := by
  rcases hdb : dbFindByEmail st.db email with _ | u <;>
    simp [get_user_by_email, cacheGetP, cacheSetP, allFail, getUserByEmailDbPhase, hdb]

theorem bypass_get_users (st : St) (skip limit : Int) :
    (get_users allFail st skip limit).2 =
        (if skip < 0 then .err (.invalidArg "skip must be non-negative")
         else if limit ≤ 0 then .err (.invalidArg "limit must be positive")
         else .ok (((st.db.drop skip.toNat).take limit.toNat).map GotUser.fromDb)) ∧
      (get_users allFail st skip limit).1.cache = st.cache ∧
      (get_users allFail st skip limit).1.db = st.db := by
  by_cases h1 : skip < 0
  · simp [get_users, h1]
  · by_cases h2 : limit ≤ 0
    · simp [get_users, h1, h2]
    · by_cases he : ((st.db.drop skip.toNat).take limit.toNat).isEmpty = true
      · have he' := List.isEmpty_iff.mp he
        simp [get_users, cacheGetP, allFail, getUsersDbPhase, h1, h2, he, he']
      · simp [get_users, cacheGetP, cacheSetP, cacheMultiSetP, allFail,
          getUsersDbPhase, h1, h2, he]

theorem bypass_create_user (st : St) (d : UserCreate) :
    (create_user allFail st d).2 = (dbOnlyCreate st.db st.nextId st.time d).1 ∧
      (create_user allFail st d).1.cache = st.cache ∧
      (create_user allFail st d).1.db = (dbOnlyCreate st.db st.nextId st.time d).2 := by
  by_cases h1 : st.db.any (fun u => sqlILike d.email u.email) = true
  · simp [create_user, dbOnlyCreate, h1]
  · by_cases h2 : st.db.any (fun u => decide (u.username = d.username)) = true
    · simp [create_user, dbOnlyCreate, h1, h2]
    · by_cases h3 : storeUniqueOK (st.db ++
        [{ id := some st.nextId
           email := strLower d.email
           username := d.username
           hashed_password := get_password_hash d.password
           full_name := d.full_name
           is_active := d.is_active
           is_superuser := d.is_superuser
           created_at := some (toString st.time)
           updated_at := some (toString st.time) }]) = true <;>
        simp [create_user, dbOnlyCreate, cacheSetP, cacheClearPatternP, allFail,
          h1, h2, h3]

theorem bypass_update_user (st : St) (uid : Nat) (p : UserUpdate) :
    (update_user allFail st uid p).2 = asDbResultOpt (dbOnlyUpdate st.db st.time uid p).1 ∧
      (update_user allFail st uid p).1.cache = st.cache ∧
      (update_user allFail st uid p).1.db = (dbOnlyUpdate st.db st.time uid p).2 := by
  rcases hdb : dbFindById st.db uid with _ | u
  · simp [update_user, get_user, cacheGetP, allFail, getUserDbPhase, hdb,
      dbOnlyUpdate, asDbResultOpt]
  · have hg2 : (get_user allFail st uid).2 = .ok (some (.fromDb u)) := by
      simp [get_user, cacheGetP, allFail, getUserDbPhase, hdb]
    have hg1c : (get_user allFail st uid).1.cache = st.cache := (bypass_get_user st uid).2.1
    have hg1d : (get_user allFail st uid).1.db = st.db := (bypass_get_user st uid).2.2
    have hg1 : (get_user allFail st uid).1 =
        {st with tick := st.tick + 1, dbQueries := st.dbQueries + 1} := by
      simp [get_user, cacheGetP, allFail, getUserDbPhase, hdb]
    by_cases hec : emailConflictB st.db uid u.email p.email = true
    · simp [update_user, hg1, hg2, dbOnlyUpdate, asDbResultOpt, hdb, gotEmailStr, hec]
    · by_cases huc : usernameConflictB st.db uid p.username = true
      · simp [update_user, hg1, hg2, dbOnlyUpdate, asDbResultOpt, hdb, gotEmailStr,
          hec, huc]
      · by_cases hnc : applyUpdRow u p = u
        · simp [update_user, hg1, hg2, dbOnlyUpdate, asDbResultOpt, hdb, gotEmailStr,
            hec, huc, hnc]
        · by_cases hok : storeUniqueOK (replaceFirstById st.db uid
            {applyUpdRow u p with updated_at := some (toString st.time)}) = true <;>
            simp [update_user, hg1, hg2, dbOnlyUpdate, asDbResultOpt, hdb, gotEmailStr,
              hec, huc, hnc, hok]

theorem bypass_delete_user (st : St) (uid : Nat) :
    (delete_user allFail st uid).2 = (dbOnlyDelete st.db uid).1 ∧
      (delete_user allFail st uid).1.cache = st.cache ∧
      (delete_user allFail st uid).1.db = (dbOnlyDelete st.db uid).2 := by
  rcases hdb : dbFindById st.db uid with _ | u
  · simp [delete_user, get_user, cacheGetP, allFail, getUserDbPhase, hdb, dbOnlyDelete]
  · have hg1 : (get_user allFail st uid).1 =
        {st with tick := st.tick + 1, dbQueries := st.dbQueries + 1} := by
      simp [get_user, cacheGetP, allFail, getUserDbPhase, hdb]
    have hg2 : (get_user allFail st uid).2 = .ok (some (.fromDb u)) := by
      simp [get_user, cacheGetP, allFail, getUserDbPhase, hdb]
    simp [delete_user, hg1, hg2, dbOnlyDelete, hdb, cacheDeleteP,
      cacheClearPatternP, allFail]

/-- A state whose primary entry for id 1 holds a payload that fails
JSON deserialization. -/
def exStCorrupt : St :=
  { db := []
    nextId := 1
    time := 0
    cache := [("user:1", ⟨.corrupt, USER_CACHE_EXPIRE⟩)]
    tick := 0
    dbQueries := 0 }

/-- C3 counterexample: a deserialization failure raised by a cache call
does propagate.  With the cache reachable but the stored payload
undeserializable, `cache_get` raises `ValueError`; `get_user` catches
only `RedisError`/`ConnectionError` around it, so the read fails with
the cache-attributable error instead of completing from persistence. -/
theorem cache_bypass_cex :
    (get_user allOk exStCorrupt 1).2 = .err .cacheDeserializeErr := by
  decide

/-- C3 (amended): if every cache call an operation makes fails with a
connectivity failure (`RedisError`), then each of the six repository
operations completes with exactly the persistence-derived result of the
cache-free reference semantics, mutates the persistence store exactly
as the reference does, leaves the cache untouched, and propagates no
error attributable to the cache.  (A deserialization `ValueError`
raised by `cache_get`, by contrast, propagates out of the reads — see
the counterexample.) -/
theorem cache_bypass_amended :
    (∀ (st : St) (uid : Nat),
      (get_user allFail st uid).2 = .ok ((dbFindById st.db uid).map GotUser.fromDb) ∧
      (get_user allFail st uid).1.cache = st.cache ∧
      (get_user allFail st uid).1.db = st.db) ∧
    (∀ (st : St) (email : String),
      (get_user_by_email allFail st email).2 =
          .ok ((dbFindByEmail st.db email).map GotUser.fromDb) ∧
      (get_user_by_email allFail st email).1.cache = st.cache ∧
      (get_user_by_email allFail st email).1.db = st.db) ∧
    (∀ (st : St) (skip limit : Int),
      (get_users allFail st skip limit).2 =
          (if skip < 0 then .err (.invalidArg "skip must be non-negative")
           else if limit ≤ 0 then .err (.invalidArg "limit must be positive")
           else .ok (((st.db.drop skip.toNat).take limit.toNat).map GotUser.fromDb)) ∧
      (get_users allFail st skip limit).1.cache = st.cache ∧
      (get_users allFail st skip limit).1.db = st.db) ∧
    (∀ (st : St) (d : UserCreate),
      (create_user allFail st d).2 = (dbOnlyCreate st.db st.nextId st.time d).1 ∧
      (create_user allFail st d).1.cache = st.cache ∧
      (create_user allFail st d).1.db = (dbOnlyCreate st.db st.nextId st.time d).2) ∧
    (∀ (st : St) (uid : Nat) (p : UserUpdate),
      (update_user allFail st uid p).2 =
          asDbResultOpt (dbOnlyUpdate st.db st.time uid p).1 ∧
      (update_user allFail st uid p).1.cache = st.cache ∧
      (update_user allFail st uid p).1.db = (dbOnlyUpdate st.db st.time uid p).2) ∧
    (∀ (st : St) (uid : Nat),
      (delete_user allFail st uid).2 = (dbOnlyDelete st.db uid).1 ∧
      (delete_user allFail st uid).1.cache = st.cache ∧
      (delete_user allFail st uid).1.db = (dbOnlyDelete st.db uid).2) :=
  ⟨bypass_get_user, bypass_get_user_by_email, bypass_get_users,
   bypass_create_user, bypass_update_user, bypass_delete_user⟩

/-! ## Global uniqueness invariant (C1) -/

theorem starMatch_of_next (next : List Char → Bool) (s : List Char)
    (h : next s = true) : starMatch next s = true := by
  cases s <;> simp [starMatch, h]

/-- Every string `LIKE`-matches its own text used as the pattern (its
wildcard characters match their own occurrences). -/
theorem sqlLikeAux_self (l : List Char) : sqlLikeAux l l = true := by
  induction l with
  | nil => rfl
  | cons c cs ih =>
    by_cases hc : c = '%'
    · subst hc
      cases cs with
      | nil => rfl
      | cons c2 cs2 =>
        have h1 : sqlLikeAux ('%' :: c2 :: cs2) ('%' :: c2 :: cs2) =
            (sqlLikeAux (c2 :: cs2) ('%' :: c2 :: cs2) ||
              starMatch (sqlLikeAux (c2 :: cs2)) (c2 :: cs2)) := rfl
        rw [h1, starMatch_of_next _ _ ih, Bool.or_true]
    · simp [sqlLikeAux, hc, ih]

theorem sqlILike_of_lower_eq (a b : String) (h : strLower a = strLower b) :
    sqlILike a b = true := by
  rw [sqlILike, h]
  exact sqlLikeAux_self _

@[simp]
theorem getUserDbPhase_db (o : Oracle) (s : St) (uid : Nat) (b : Bool) :
    (getUserDbPhase o s uid b).1.db = s.db := by
  rcases h : dbFindById s.db uid with _ | u
  · simp [getUserDbPhase, h]
  · cases b <;> simp [getUserDbPhase, h]

@[simp]
theorem getUserDbPhase_nextId (o : Oracle) (s : St) (uid : Nat) (b : Bool) :
    (getUserDbPhase o s uid b).1.nextId = s.nextId := by
  rcases h : dbFindById s.db uid with _ | u
  · simp [getUserDbPhase, h]
  · cases b <;> simp [getUserDbPhase, h]

@[simp]
theorem getUserDbPhase_time (o : Oracle) (s : St) (uid : Nat) (b : Bool) :
    (getUserDbPhase o s uid b).1.time = s.time := by
  rcases h : dbFindById s.db uid with _ | u
  · simp [getUserDbPhase, h]
  · cases b <;> simp [getUserDbPhase, h]

/-- Reading via `get_user` touches only the cache and the counters: the table, the
auto-increment counter and the clock are unchanged. -/
theorem get_user_state (o : Oracle) (st : St) (uid : Nat) :
    (get_user o st uid).1.db = st.db ∧
      (get_user o st uid).1.nextId = st.nextId ∧
      (get_user o st uid).1.time = st.time := by
  cases ho : o st.tick
  · rcases hcl : cLookup st.cache (USER_KEY (toString uid)) with _ | ⟨val, ttl⟩
    · simp [get_user, cacheGetP, ho, hcl]
    · cases val with
      | corrupt => simp [get_user, cacheGetP, ho, hcl]
      | cdict d =>
        cases htr : cacheTruthy (CacheVal.cdict d)
        · simp [get_user, cacheGetP, ho, hcl, htr]
        · by_cases hval : validate_cache_data d = true
          · by_cases hkw : kwargsAccepted (dictStrip d) = true
            · simp [get_user, cacheGetP, ho, hcl, htr, hval, hkw]
            · simp [get_user, cacheGetP, ho, hcl, htr, hval, hkw]
          · simp [get_user, cacheGetP, ho, hcl, htr, hval]
      | clist ds =>
        cases htr : cacheTruthy (CacheVal.clist ds) <;>
          simp [get_user, cacheGetP, ho, hcl, htr]
      | cnum n =>
        cases htr : cacheTruthy (CacheVal.cnum n) <;>
          simp [get_user, cacheGetP, ho, hcl, htr]
  · simp [get_user, cacheGetP, ho]

theorem getUserDbPhase_fromDb (o : Oracle) (s : St) (uid : Nat) (b : Bool) (u : UserRec)
    (h : (getUserDbPhase o s uid b).2 = .ok (some (.fromDb u))) :
    dbFindById s.db uid = some u := by
  rcases hf : dbFindById s.db uid with _ | w
  · simp [getUserDbPhase, hf] at h
  · cases b <;> simp [getUserDbPhase, hf] at h <;> rw [h]

/-- A session-attached result of `get_user` is exactly the first row of
the table with the requested id. -/
theorem get_user_fromDb (o : Oracle) (st : St) (uid : Nat) (u : UserRec)
    (h : (get_user o st uid).2 = .ok (some (.fromDb u))) :
    dbFindById st.db uid = some u := by
  cases ho : o st.tick
  · rcases hcl : cLookup st.cache (USER_KEY (toString uid)) with _ | ⟨val, ttl⟩
    · exact getUserDbPhase_fromDb o {st with tick := st.tick + 1} uid true u
        (by simpa [get_user, cacheGetP, ho, hcl] using h)
    · cases val with
      | corrupt => simp [get_user, cacheGetP, ho, hcl] at h
      | cdict d =>
        cases htr : cacheTruthy (CacheVal.cdict d)
        · exact getUserDbPhase_fromDb o {st with tick := st.tick + 1} uid true u
            (by simpa [get_user, cacheGetP, ho, hcl, htr] using h)
        · by_cases hval : validate_cache_data d = true
          · by_cases hkw : kwargsAccepted (dictStrip d) = true
            · simp [get_user, cacheGetP, ho, hcl, htr, hval, hkw] at h
            · have h2 := getUserDbPhase_fromDb o
                (cacheDeleteP o {st with tick := st.tick + 1} (USER_KEY (toString uid))).1
                uid true u (by simpa [get_user, cacheGetP, ho, hcl, htr, hval, hkw] using h)
              simpa using h2
          · have h2 := getUserDbPhase_fromDb o
              (cacheDeleteP o {st with tick := st.tick + 1} (USER_KEY (toString uid))).1
              uid true u (by simpa [get_user, cacheGetP, ho, hcl, htr, hval] using h)
            simpa using h2
      | clist ds =>
        cases htr : cacheTruthy (CacheVal.clist ds)
        · exact getUserDbPhase_fromDb o {st with tick := st.tick + 1} uid true u
            (by simpa [get_user, cacheGetP, ho, hcl, htr] using h)
        · have h2 := getUserDbPhase_fromDb o
            (cacheDeleteP o {st with tick := st.tick + 1} (USER_KEY (toString uid))).1
            uid true u (by simpa [get_user, cacheGetP, ho, hcl, htr] using h)
          simpa using h2
      | cnum n =>
        cases htr : cacheTruthy (CacheVal.cnum n)
        · exact getUserDbPhase_fromDb o {st with tick := st.tick + 1} uid true u
            (by simpa [get_user, cacheGetP, ho, hcl, htr] using h)
        · have h2 := getUserDbPhase_fromDb o
            (cacheDeleteP o {st with tick := st.tick + 1} (USER_KEY (toString uid))).1
            uid true u (by simpa [get_user, cacheGetP, ho, hcl, htr] using h)
          simpa using h2
  · exact getUserDbPhase_fromDb o {st with tick := st.tick + 1} uid false u
      (by simpa [get_user, cacheGetP, ho] using h)

theorem create_preserves_unique (o : Oracle) (st : St) (d : UserCreate)
    (h : storeUniqueOK st.db = true) :
    storeUniqueOK (create_user o st d).1.db = true := by
  by_cases h1 : st.db.any (fun u => sqlILike d.email u.email) = true
  · simpa [create_user, h1] using h
  · by_cases h2 : st.db.any (fun u => decide (u.username = d.username)) = true
    · simpa [create_user, h1, h2] using h
    · by_cases h3 : storeUniqueOK (st.db ++
        [{ id := some st.nextId
           email := strLower d.email
           username := d.username
           hashed_password := get_password_hash d.password
           full_name := d.full_name
           is_active := d.is_active
           is_superuser := d.is_superuser
           created_at := some (toString st.time)
           updated_at := some (toString st.time) }]) = true
      · simp [create_user, h1, h2, h3]
      · simpa [create_user, h1, h2, h3] using h

theorem update_preserves_unique (o : Oracle) (st : St) (uid : Nat) (p : UserUpdate)
    (h : storeUniqueOK st.db = true) :
    storeUniqueOK (update_user o st uid p).1.db = true := by
  have hgdb := (get_user_state o st uid).1
  have hgt := (get_user_state o st uid).2.2
  rcases hr : (get_user o st uid).2 with a | e
  case err => simpa [update_user, hr, hgdb] using h
  case ok =>
    rcases a with _ | gu
    · simpa [update_user, hr, hgdb] using h
    · by_cases hec : emailConflictB st.db uid (gotEmailStr gu) p.email = true
      · simpa [update_user, hr, hgdb, hec] using h
      · by_cases huc : usernameConflictB st.db uid p.username = true
        · simpa [update_user, hr, hgdb, hec, huc] using h
        · cases gu with
          | fromCache dOld =>
            simpa [update_user, hr, hgdb, hec, huc] using h
          | fromDb u =>
            by_cases hnc : applyUpdRow u p = u
            · simpa [update_user, hr, hgdb, hec, huc, hnc] using h
            · by_cases hok : storeUniqueOK (replaceFirstById st.db uid
                {applyUpdRow u p with updated_at := some (toString st.time)}) = true
              · simp [update_user, hr, hgdb, hgt, hec, huc, hnc, hok]
              · simpa [update_user, hr, hgdb, hgt, hec, huc, hnc, hok] using h

/-- The persisted table of every state reachable from the empty store
by creates and updates satisfies the store's unique constraints. -/
theorem runOps_unique (o : Oracle) (ops : List RepoOp) :
    ∀ st : St, storeUniqueOK st.db = true → storeUniqueOK (runOps o st ops).db = true := by
  induction ops with
  | nil => exact fun st h => h
  | cons op rest ih =>
    intro st h
    show storeUniqueOK (runOps o (runOp o st op) rest).db = true
    apply ih
    cases op with
    | createOp d => exact create_preserves_unique o st d h
    | updateOp uid p => exact update_preserves_unique o st uid p h

/-- A create whose data would violate the invariant fails on the
advisory pre-checks with a conflict `ValueError` and leaves the table
unchanged. -/
theorem create_violating_fails (o : Oracle) (st : St) (d : UserCreate)
    (hv : (∃ w ∈ st.db, strLower w.email = strLower d.email) ∨
      (∃ w ∈ st.db, w.username = d.username)) :
    (∃ m, (create_user o st d).2 = .err (.conflictErr m)) ∧
      (create_user o st d).1.db = st.db := by
  by_cases h1 : st.db.any (fun u => sqlILike d.email u.email) = true
  · exact ⟨⟨"Email address " ++ d.email ++ " is already registered",
      by simp [create_user, h1]⟩, by simp [create_user, h1]⟩
  · rcases hv with ⟨w, hw, he⟩ | ⟨w, hw, hn⟩
    · exact absurd (List.any_eq_true.mpr ⟨w, hw,
        sqlILike_of_lower_eq d.email w.email he.symm⟩) h1
    · have h2 : st.db.any (fun u => decide (u.username = d.username)) = true :=
        List.any_eq_true.mpr ⟨w, hw, by simp [hn]⟩
      exact ⟨⟨"Username " ++ d.username ++ " is already taken",
        by simp [create_user, h1, h2]⟩, by simp [create_user, h1, h2]⟩

/-- An update whose data would violate the invariant (against a store
currently satisfying it) either fails — advisory conflict `ValueError`
or commit-time `IntegrityError` — or leaves the persisted table
unchanged (the cache-resolved transient case, which commits nothing). -/
theorem update_violating (o : Oracle) (st : St) (uid : Nat) (p : UserUpdate)
    (hInv : storeUniqueOK st.db = true)
    (hv : ∃ w ∈ st.db, w.id ≠ some uid ∧
      ((∃ e, p.email = some e ∧ strLower w.email = strLower e) ∨
       (∃ wn, p.username = some wn ∧ w.username = wn))) :
    (∃ er, (update_user o st uid p).2 = .err er) ∨
      (update_user o st uid p).1.db = st.db := by
  obtain ⟨w, hwmem, hwid, hcase⟩ := hv
  have hgdb := (get_user_state o st uid).1
  have hgt := (get_user_state o st uid).2.2
  have hsym : Symmetric (fun (x y : UserRec) =>
      strLower x.email ≠ strLower y.email ∧ x.username ≠ y.username) := by
    intro x y hxy
    exact ⟨fun hh => hxy.1 hh.symm, fun hh => hxy.2 hh.symm⟩
  rcases hr : (get_user o st uid).2 with a | e
  case err => exact Or.inl ⟨e, by simp [update_user, hr]⟩
  case ok =>
    rcases a with _ | gu
    · exact Or.inr (by simp [update_user, hr, hgdb])
    · by_cases hec : emailConflictB st.db uid (gotEmailStr gu) p.email = true
      · exact Or.inl ⟨.conflictErr "Email is already in use",
          by simp [update_user, hr, hgdb, hec]⟩
      · by_cases huc : usernameConflictB st.db uid p.username = true
        · exact Or.inl ⟨.conflictErr "Username is already in use",
            by simp [update_user, hr, hgdb, hec, huc]⟩
        · cases gu with
          | fromCache dOld =>
            exact Or.inr (by simp [update_user, hr, hgdb, hec, huc])
          | fromDb u =>
            have hec2 : ¬ emailConflictB st.db uid u.email p.email = true := by
              simpa [gotEmailStr] using hec
            have hfind : dbFindById st.db uid = some u := get_user_fromDb o st uid u hr
            obtain ⟨humem, huid⟩ := dbFindById_mem hfind
            have hwne : w ≠ u := by
              intro hh
              exact hwid (hh ▸ huid)
            rcases hcase with ⟨e, hpe, hle⟩ | ⟨wn, hpu, hwn⟩
            · by_cases heq : e = u.email
              · exfalso
                have hPw : UniqueInv st.db := (storeUniqueOK_iff st.db).mp hInv
                obtain ⟨hEm, _⟩ := hPw.forall hsym hwmem humem hwne
                rw [heq] at hle
                exact hEm hle
              · by_cases hnc : applyUpdRow u p = u
                · exfalso
                  have hee : (applyUpdRow u p).email = e := by
                    simp [applyUpdRow, hpe]
                  rw [hnc] at hee
                  exact heq hee.symm
                · by_cases hok : storeUniqueOK (replaceFirstById st.db uid
                    {applyUpdRow u p with updated_at := some (toString st.time)}) = true
                  · exfalso
                    have hw' : w ∈ replaceFirstById st.db uid
                        {applyUpdRow u p with updated_at := some (toString st.time)} :=
                      mem_replaceFirstById_of_ne hwmem hwid
                    have hf' : ({applyUpdRow u p with updated_at := some (toString st.time)} :
                        UserRec) ∈ replaceFirstById st.db uid
                          {applyUpdRow u p with updated_at := some (toString st.time)} :=
                      self_mem_replaceFirstById hfind _
                    have hfid : ({applyUpdRow u p with
                        updated_at := some (toString st.time)} : UserRec).id = some uid := by
                      simpa [applyUpdRow] using huid
                    have hfne : ({applyUpdRow u p with
                        updated_at := some (toString st.time)} : UserRec) ≠ w := by
                      intro hh
                      exact hwid (hh ▸ hfid)
                    have hPw' : UniqueInv (replaceFirstById st.db uid
                        {applyUpdRow u p with updated_at := some (toString st.time)}) :=
                      (storeUniqueOK_iff _).mp hok
                    obtain ⟨hEm, _⟩ := hPw'.forall hsym hf' hw' hfne
                    have hfe : ({applyUpdRow u p with
                        updated_at := some (toString st.time)} : UserRec).email = e := by
                      simp [applyUpdRow, hpe]
                    rw [hfe] at hEm
                    exact hEm hle.symm
                  · exact Or.inl ⟨.integrityErr,
                      by simp [update_user, hr, hgdb, hgt, hec2, huc, gotEmailStr, hnc, hok]⟩
            · exfalso
              apply huc
              rw [hpu]
              simp only [usernameConflictB]
              exact List.any_eq_true.mpr ⟨w, hwmem, by simp [hwn, hwid]⟩

/-- The three-operation prefix of the C1 counterexample: two creates,
then a no-change update of user 2 (whose internal read-through
populates the primary cache entry `user:2`). -/
def exSeqOps : List RepoOp :=
  [.createOp exCreate1, .createOp exCreate2, .updateOp 2 {}]

def exStSeq : St := runOps allOk st0 exSeqOps

/-- C1 counterexample: starting from the empty store, after
`create(a@b.c/u1)`, `create(d@e.f/u2)` and a no-change `update(2, {})`,
the update `update(2, {email: "A@B.C"})` has data that would violate
case-insensitive email uniqueness (user 1 persists `a@b.c`), yet it
SUCCEEDS — no conflict error.  The internal read-through resolves user
2 from the cache as a transient instance, the case-sensitive advisory
pre-check misses `a@b.c`, and the commit flushes nothing, so the claim
that every violating create-or-update fails with a conflict error is
false; the persisted store is silently left unchanged instead. -/
theorem uniqueness_invariant_cex :
    exStSeq.db.any
        (fun w => decide (w.id ≠ some 2 ∧ strLower w.email = strLower "A@B.C")) = true ∧
      (match (update_user allOk exStSeq 2 { email := some "A@B.C" }).2 with
        | .ok (some _) => true
        | _ => false) = true ∧
      (update_user allOk exStSeq 2 { email := some "A@B.C" }).1.db = exStSeq.db := by
  refine ⟨by decide, by decide, by decide⟩

/-- C1 (amended): starting from the empty store, (1) the persisted
(non-deleted) table always satisfies the invariant — no two rows share
an email case-insensitively and no two share a username
case-sensitively; (2) a create whose data would violate it fails with a
conflict error and leaves the table unchanged; (3) an update whose data
would violate it (against a table currently satisfying the constraints)
either fails with a conflict or integrity error, or — when the target
was resolved from the cache as a transient instance — returns without
modifying the persisted table.  The store-side unique constraints are
modelled from the spec (case-insensitive email, case-sensitive
username); the advisory pre-checks are from the source. -/
theorem uniqueness_invariant_amended :
    (∀ (o : Oracle) (ops : List RepoOp), UniqueInv (runOps o st0 ops).db) ∧
    (∀ (o : Oracle) (st : St) (d : UserCreate),
      ((∃ w ∈ st.db, strLower w.email = strLower d.email) ∨
        (∃ w ∈ st.db, w.username = d.username)) →
      (∃ m, (create_user o st d).2 = .err (.conflictErr m)) ∧
        (create_user o st d).1.db = st.db) ∧
    (∀ (o : Oracle) (st : St) (uid : Nat) (p : UserUpdate),
      storeUniqueOK st.db = true →
      (∃ w ∈ st.db, w.id ≠ some uid ∧
        ((∃ e, p.email = some e ∧ strLower w.email = strLower e) ∨
         (∃ wn, p.username = some wn ∧ w.username = wn))) →
      (∃ er, (update_user o st uid p).2 = .err er) ∨
        (update_user o st uid p).1.db = st.db) := by
  refine ⟨fun o ops => ?_, create_violating_fails, update_violating⟩
  exact (storeUniqueOK_iff _).mp (runOps_unique o ops st0 rfl)

/-- Witness for C1: the invariant after a concrete operation sequence;
a concrete duplicate-email create rejected with the table unchanged;
a concrete duplicate-username update rejected or inert. -/
theorem uniqueness_invariant_witness :
    UniqueInv (runOps allOk st0 exSeqOps).db ∧
      ((∃ m, (create_user allOk exStSeq exCreate1).2 = .err (.conflictErr m)) ∧
        (create_user allOk exStSeq exCreate1).1.db = exStSeq.db) ∧
      ((∃ er, (update_user allOk exStSeq 2 { username := some "u1" }).2 = .err er) ∨
        (update_user allOk exStSeq 2 { username := some "u1" }).1.db = exStSeq.db) :=
  ⟨uniqueness_invariant_amended.1 allOk exSeqOps,
   uniqueness_invariant_amended.2.1 allOk exStSeq exCreate1
     (Or.inl ⟨exUserA, by decide, by decide⟩),
   uniqueness_invariant_amended.2.2 allOk exStSeq 2 { username := some "u1" }
     (by decide) ⟨exUserA, by decide, by decide, Or.inr ⟨"u1", rfl, by decide⟩⟩⟩

end APIPerf
